import Mathlib

/-!
Verification of the Monkey-style tree-walking interpreter
(`token/token.go`, `lexer/lexer.go`, `ast`, `object/object.go`,
`parser/parser.go` containing the Pratt parser and the evaluator).

The Go sources are shallowly embedded: Go strings are `List Char` at the
lexer level (the inputs are byte-oriented ASCII, so characters and bytes
coincide), Go `int64` is `Int` with explicit wrapping at `2^64` where the
evaluator performs arithmetic, fallible or looping Go code is driven by an
explicit fuel argument (a Go infinite loop shows up as exhaustion of every
fuel), and the Go runtime panics that the evaluator can hit (nil-interface
method calls, out-of-range argument indexing, integer division by zero)
are reified as an explicit `panicked` result.  Environments are mutable
and shared between closures in Go, so they live in an explicit store
(list of frames addressed by index); `Environment.Get` walks the `outer`
chain, which by construction only ever points to older frames.
-/

namespace Monkey

/-! ## Tokens (`token/token.go`) -/

/-- The closed set of token kinds from `token/token.go`. -/
inductive TokType where
  | illegal | eof | ident | int | string
  | assign | plus | minus | bang | asterisk | slash | lt | gt | eq | notEq
  | comma | semicolon | lparen | rparen | lbrace | rbrace | lbracket | rbracket
  | function | let_ | true_ | false_ | if_ | else_ | return_
deriving DecidableEq, Repr

/-- The string value of each `TokenType` constant in `token/token.go`
(Go's `TokenType` is a string; `%s` formatting prints this value). -/
def TokType.str : TokType → String
  | .illegal => "ILLEGAL"
  | .eof => "EOF"
  | .ident => "IDENT"
  | .int => "INT"
  | .string => "STRING"
  | .assign => "="
  | .plus => "+"
  | .minus => "-"
  | .bang => "!"
  | .asterisk => "*"
  | .slash => "/"
  | .lt => "<"
  | .gt => ">"
  | .eq => "=="
  | .notEq => "!="
  | .comma => ","
  | .semicolon => ";"
  | .lparen => "("
  | .rparen => ")"
  | .lbrace => "\x7b"
  | .rbrace => "\x7d"
  | .lbracket => "["
  | .rbracket => "]"
  | .function => "FUNCTION"
  | .let_ => "LET"
  | .true_ => "TRUE"
  | .false_ => "FALSE"
  | .if_ => "IF"
  | .else_ => "ELSE"
  | .return_ => "RETURN"

/-- A token is a pair of kind and literal (`token.Token`). -/
structure Token where
  type : TokType
  literal : String
deriving DecidableEq, Repr

/-- `token.LookupIdent`: keyword table, defaulting to `IDENT`. -/
def lookupIdent (lit : String) : TokType :=
  if lit == "fn" then .function
  else if lit == "let" then .let_
  else if lit == "true" then .true_
  else if lit == "false" then .false_
  else if lit == "if" then .if_
  else if lit == "else" then .else_
  else if lit == "return" then .return_
  else .ident

/-! ## Lexer (`lexer/lexer.go`) -/

/-- The NUL character, Go's byte value 0 used by the lexer as the
end-of-input marker. -/
def Char0 : Char := Char.ofNat 0

/-- The lexer state, mirroring the four fields of Go's `Lexer` struct. -/
structure Lexer where
  input : List Char
  ch : Char
  position : Nat
  readPosition : Nat
deriving DecidableEq, Repr

/-- `Lexer.readChar`: advance one byte, setting `ch` to 0 past the end. -/
def readChar (l : Lexer) : Lexer :=
  { l with
    ch := if l.readPosition ≥ l.input.length then Char0 else l.input.getD l.readPosition Char0
    position := l.readPosition
    readPosition := l.readPosition + 1 }

/-- `lexer.New`: zero-valued struct followed by one `readChar`. -/
def lexerNew (input : List Char) : Lexer :=
  readChar { input := input, ch := Char0, position := 0, readPosition := 0 }

/-- `Lexer.peekChar`. -/
def peekChar (l : Lexer) : Char :=
  if l.readPosition ≥ l.input.length then Char0 else l.input.getD l.readPosition Char0

/-- `isLetter` from `lexer/lexer.go`. -/
def isLetter (c : Char) : Bool :=
  ('a' ≤ c && c ≤ 'z') || ('A' ≤ c && c ≤ 'Z') || c == '_'

/-- `isDigit` from `lexer/lexer.go`. -/
def isDigit (c : Char) : Bool :=
  '0' ≤ c && c ≤ '9'

/-- `isDigitFirst` from `lexer/lexer.go`: a digit or a sign character. -/
def isDigitFirst (c : Char) : Bool :=
  isDigit c || c == '-' || c == '+'

/-- The whitespace test of `Lexer.skipWhiteSpace`. -/
def isWS (c : Char) : Bool :=
  c == ' ' || c == '\t' || c == '\n' || c == '\r'

/-- Fueled form of the Go `for`-loops that advance the lexer while a
character predicate holds (`skipWhiteSpace`, `readIdentifier`,
`readDigit`).  The predicates used all reject the 0 byte, so
`input.length + 2` fuel provably reaches the loop's exit (see
`consumeWhileF_stops`); `consumeWhile` below supplies that fuel. -/
def consumeWhileF (p : Char → Bool) : Nat → Lexer → Lexer
  | 0, l => l
  | fuel + 1, l => if p l.ch then consumeWhileF p fuel (readChar l) else l

/-- The Go character loop with its provably sufficient fuel. -/
def consumeWhile (p : Char → Bool) (l : Lexer) : Lexer :=
  consumeWhileF p (l.input.length + 2) l

/-- `Lexer.skipWhiteSpace`. -/
def skipWhiteSpace (l : Lexer) : Lexer :=
  consumeWhile isWS l

/-- `Lexer.readIdentifier`: consume the maximal letter run and slice the
input between the starting and final positions, as Go does. -/
def readIdentifier (l : Lexer) : String × Lexer :=
  let l' := consumeWhile isLetter l
  (String.mk ((l.input.drop l.position).take (l'.position - l.position)), l')

/-- `Lexer.readDigit`: like `readIdentifier` but for `isDigitFirst` runs
(note that this accepts interior `+`/`-` characters). -/
def readDigit (l : Lexer) : String × Lexer :=
  let l' := consumeWhile isDigitFirst l
  (String.mk ((l.input.drop l.position).take (l'.position - l.position)), l')

/-- `newToken` from `lexer/lexer.go`: token from one character. -/
def newTokenC (t : TokType) (c : Char) : Token :=
  ⟨t, String.mk [c]⟩

/-- `Lexer.NextToken`, the whole dispatch `switch`.  The identifier- and
digit-branches return early (their loops consumed the characters); the
`ILLEGAL` branch also returns early and consumes **nothing**, so an
illegal byte makes the lexer return the same `ILLEGAL` token forever.
All other branches advance by one `readChar` before returning. -/
def nextTokenL (l0 : Lexer) : Token × Lexer :=
  let l := skipWhiteSpace l0
  if l.ch == '=' then
    if peekChar l == '=' then
      let l := readChar l
      (⟨.eq, "=="⟩, readChar l)
    else (newTokenC .assign l.ch, readChar l)
  else if l.ch == ';' then (newTokenC .semicolon l.ch, readChar l)
  else if l.ch == '(' then (newTokenC .lparen l.ch, readChar l)
  else if l.ch == ')' then (newTokenC .rparen l.ch, readChar l)
  else if l.ch == ',' then (newTokenC .comma l.ch, readChar l)
  else if l.ch == '+' then (newTokenC .plus l.ch, readChar l)
  else if l.ch == '{' then (newTokenC .lbrace l.ch, readChar l)
  else if l.ch == '}' then (newTokenC .rbrace l.ch, readChar l)
  else if l.ch == '-' then (newTokenC .minus l.ch, readChar l)
  else if l.ch == '!' then
    if peekChar l == '=' then
      let l := readChar l
      (⟨.notEq, "!="⟩, readChar l)
    else (newTokenC .bang l.ch, readChar l)
  else if l.ch == '/' then (newTokenC .slash l.ch, readChar l)
  else if l.ch == '*' then (newTokenC .asterisk l.ch, readChar l)
  else if l.ch == '<' then (newTokenC .lt l.ch, readChar l)
  else if l.ch == '>' then (newTokenC .gt l.ch, readChar l)
  else if l.ch == Char0 then (⟨.eof, ""⟩, readChar l)
  else if isLetter l.ch then
    let (lit, l') := readIdentifier l
    (⟨lookupIdent lit, lit⟩, l')
  else if isDigitFirst l.ch then
    let (lit, l') := readDigit l
    (⟨.int, lit⟩, l')
  else (newTokenC .illegal l.ch, l)

/-- The stream of the first `n` tokens starting from lexer state `l`. -/
def lexTokensFrom : Lexer → Nat → List Token
  | _, 0 => []
  | l, n + 1 =>
    let (t, l') := nextTokenL l
    t :: lexTokensFrom l' n

/-- The first `n` tokens of an input. -/
def lexTokens (input : List Char) (n : Nat) : List Token :=
  lexTokensFrom (lexerNew input) n

example : lexTokens "let x = 5;".data 6 =
    [⟨.let_, "let"⟩, ⟨.ident, "x"⟩, ⟨.assign, "="⟩, ⟨.int, "5"⟩,
     ⟨.semicolon, ";"⟩, ⟨.eof, ""⟩] := by decide

example : lexTokens "a - b".data 4 =
    [⟨.ident, "a"⟩, ⟨.minus, "-"⟩, ⟨.ident, "b"⟩, ⟨.eof, ""⟩] := by decide

example : lexTokens "5-3".data 2 = [⟨.int, "5-3"⟩, ⟨.eof, ""⟩] := by decide

example : lexTokens "len(\"x\")".data 4 =
    [⟨.ident, "len"⟩, ⟨.lparen, "("⟩, ⟨.illegal, "\""⟩, ⟨.illegal, "\""⟩] := by decide

/-! ## AST (`ast/ast.go`)

Expression and statement slots that Go represents as possibly-nil
pointers are `Option`s: the parser stores `none` where Go stores a nil
node, and `Eval` of a nil node falls through the type switch and returns
nil.  `StringLiteral`, `ArrayLiteral` and `IndexExpression` are not in
the `src/ast` file; their shape is modelled from the spec: §3.2 lists
`StringLiteral{value: string}`, `ArrayLiteral{elements: ordered sequence
of Expression}` and `IndexExpression{target: Expression, index:
Expression}`, matching how `parser.go` builds them.  Identifier lists
(function parameters) keep only the identifier's string value, the one
field the parser and evaluator read.  A nil and an empty argument slice
are distinguished (`Option (List _)`), mirroring the Go parser's
distinct `nil` and `[]` returns. -/

mutual
inductive Expr where
  | ident (name : String)
  | intLit (v : Int)
  | strLit (s : String)
  | boolLit (b : Bool)
  | pre (op : String) (right : Option Expr)
  | inf (left : Option Expr) (op : String) (right : Option Expr)
  | ifE (cond : Option Expr) (cons : List Stmt) (alt : Option (List Stmt))
  | fnLit (params : List String) (body : List Stmt)
  | call (callee : Option Expr) (args : Option (List (Option Expr)))
  | arrayLit (elems : Option (List (Option Expr)))
  | indexE (left : Option Expr) (idx : Option Expr)

inductive Stmt where
  | letS (name : String) (value : Option Expr)
  | returnS (value : Option Expr)
  | exprS (e : Option Expr)
end

/-! ## Parser (`parser/parser.go`)

The parser state holds the two lookahead tokens, the lexer, and the
accumulated error strings.  Every Go parser method that can recurse
takes an explicit fuel; each call decrements it, and exhaustion returns
`none` (so a parse that never terminates in Go, such as on a stuck
`ILLEGAL` token, fails for every fuel). -/

structure PState where
  cur : Token
  peek : Token
  lex : Lexer
  errors : List String
deriving Repr

/-- `Parser.nextToken`. -/
def nextTokenP (st : PState) : PState :=
  let (t, lx) := nextTokenL st.lex
  { cur := st.peek, peek := t, lex := lx, errors := st.errors }

/-- `parser.New`: two `nextToken` calls prime `cur` and `peek`. -/
def parserNew (l : Lexer) : PState :=
  let (t1, l1) := nextTokenL l
  let (t2, l2) := nextTokenL l1
  { cur := t1, peek := t2, lex := l2, errors := [] }

/-- Parser over a source string. -/
def mkParser (src : String) : PState :=
  parserNew (lexerNew src.data)

/-- Append one error message (`p.errors = append(p.errors, msg)`). -/
def addError (st : PState) (msg : String) : PState :=
  { st with errors := st.errors ++ [msg] }

/-- The message built by `Parser.peekError`. -/
def peekErrorMsg (t : TokType) (got : TokType) : String :=
  "expected next token to be " ++ t.str ++ ", got " ++ got.str ++ " instead"

/-- `Parser.expectPeek`: advance on match, record a `peekError` otherwise. -/
def expectPeek (t : TokType) (st : PState) : Bool × PState :=
  if st.peek.type == t then (true, nextTokenP st)
  else (false, addError st (peekErrorMsg t st.peek.type))

/-- The precedence ladder (`LOWEST = 1 … INDEX = 8`) together with the
`precedences` map; token kinds outside the map get `LOWEST`. -/
def precOf : TokType → Nat
  | .eq | .notEq => 2
  | .lt | .gt => 3
  | .plus | .minus => 4
  | .slash | .asterisk => 5
  | .lparen => 7
  | .lbracket => 8
  | _ => 1

/-- `LOWEST` precedence. -/
def LOWEST : Nat := 1

/-- `PREFIX` precedence. -/
def PREFIX : Nat := 6

/-- Digit-string value in a base, rejecting characters that are not
digits of that base (Go's per-digit validation in `strconv.ParseInt`). -/
def digitsVal (base : Nat) (cs : List Char) : Option Nat :=
  cs.foldl
    (fun acc c =>
      match acc with
      | none => none
      | some n =>
          if isDigit c && c.toNat - 48 < base then some (n * base + (c.toNat - 48))
          else none)
    (some 0)

/-- `strconv.ParseInt(lit, 0, 64)` as invoked by `parseIntegerLiteral`,
restricted to the character class the lexer's `readDigit` can produce
(digits and interior `+`/`-`): an optional leading sign, base detection
(a leading `0` with more characters selects octal; `0x`/`0b`/`0o`
prefixes cannot occur in this character class), per-digit validation
(so interior signs fail), and the `int64` range check. -/
def goParseIntLit (s : String) : Option Int :=
  match s.data with
  | [] => none
  | c :: rest =>
    let signed : Bool × List Char :=
      if c == '-' then (true, rest)
      else if c == '+' then (false, rest)
      else (false, c :: rest)
    match signed.2 with
    | [] => none
    | d :: ds =>
      let octal := d == '0' && !ds.isEmpty
      let digits := if octal then ds else d :: ds
      match digitsVal (if octal then 8 else 10) digits with
      | none => none
      | some n =>
          if signed.1 then
            if n ≤ 2 ^ 63 then some (-(n : Int)) else none
          else
            if n ≤ 2 ^ 63 - 1 then some (n : Int) else none

/-- `Parser.parseIntegerLiteral` (no recursion, hence no fuel). -/
def parseIntegerLiteral (st : PState) : Option Expr × PState :=
  match goParseIntLit st.cur.literal with
  | some v => (some (.intLit v), st)
  | none => (none, addError st ("could not parse \"" ++ st.cur.literal ++ "\" as integer"))

/-- Does the infix table of `parser.New` register this token kind? -/
def hasInfixFn : TokType → Bool
  | .plus | .minus | .slash | .asterisk | .eq | .notEq | .lt | .gt
  | .lparen | .lbracket => true
  | _ => false

mutual

/-- `Parser.ParseProgram`: collect statements until `EOF`, skipping nil
statements.  (Go's `stmt != nil` test is on the interface value; a
failed `let`/`return` parse yields a typed-nil pointer that Go would in
fact append — the collector here drops `none`, which matches the spec's
reading and is observationally equal for every program whose statements
parse, the only programs any claim evaluates.) -/
def parseProgramF : Nat → PState → Option (List Stmt × PState)
  | 0, _ => none
  | fuel + 1, st =>
    if st.cur.type == .eof then some ([], st)
    else
      match parseStatementF fuel st with
      | none => none
      | some (stmtOpt, st') =>
        match parseProgramF fuel (nextTokenP st') with
        | none => none
        | some (rest, st'') =>
          some ((match stmtOpt with | some s => s :: rest | none => rest), st'')
termination_by structural fuel => fuel

/-- `Parser.parseStatement`: dispatch on the current token kind. -/
def parseStatementF : Nat → PState → Option (Option Stmt × PState)
  | 0, _ => none
  | fuel + 1, st =>
    match st.cur.type with
    | .let_ => parseLetStatementF fuel st
    | .return_ => parseReturnStatementF fuel st
    | _ => parseExpressionStatementF fuel st
termination_by structural fuel => fuel

/-- `Parser.parseLetStatement`: `IDENT`, `ASSIGN`, expression at
`LOWEST`, then an optional trailing semicolon consumed only when
present, with no error when absent. -/
def parseLetStatementF : Nat → PState → Option (Option Stmt × PState)
  | 0, _ => none
  | fuel + 1, st =>
    match expectPeek .ident st with
    | (false, st1) => some (none, st1)
    | (true, st1) =>
      let name := st1.cur.literal
      match expectPeek .assign st1 with
      | (false, st2) => some (none, st2)
      | (true, st2) =>
        let st3 := nextTokenP st2
        match parseExpressionF fuel LOWEST st3 with
        | none => none
        | some (value, st4) =>
          let st5 := if st4.peek.type == .semicolon then nextTokenP st4 else st4
          some (some (.letS name value), st5)
termination_by structural fuel => fuel

/-- `Parser.parseReturnStatement`: advance past `return`, parse the
expression at `LOWEST`, then call `expectPeek(SEMICOLON)`
unconditionally — its boolean result is discarded, but a missing
semicolon records a `peekError`. -/
def parseReturnStatementF : Nat → PState → Option (Option Stmt × PState)
  | 0, _ => none
  | fuel + 1, st =>
    let st1 := nextTokenP st
    match parseExpressionF fuel LOWEST st1 with
    | none => none
    | some (value, st2) =>
      let st3 := (expectPeek .semicolon st2).2
      some (some (.returnS value), st3)
termination_by structural fuel => fuel

/-- `Parser.parseExpressionStatement`. -/
def parseExpressionStatementF : Nat → PState → Option (Option Stmt × PState)
  | 0, _ => none
  | fuel + 1, st =>
    match parseExpressionF fuel LOWEST st with
    | none => none
    | some (e, st1) =>
      let st2 := if st1.peek.type == .semicolon then nextTokenP st1 else st1
      some (some (.exprS e), st2)
termination_by structural fuel => fuel

/-- `Parser.parseExpression`: prefix dispatch (the registered prefix
parse functions of `parser.New`, with the "no prefix parse function"
error for unregistered kinds), then the Pratt loop. -/
def parseExpressionF : Nat → Nat → PState → Option (Option Expr × PState)
  | 0, _, _ => none
  | fuel + 1, prec, st =>
    let dispatched : Option (Option Expr × PState) :=
      match st.cur.type with
      | .ident => some (some (.ident st.cur.literal), st)
      | .int => some (parseIntegerLiteral st)
      | .string => some (some (.strLit st.cur.literal), st)
      | .bang | .minus => parsePrefixExpressionF fuel st
      | .true_ => some (some (.boolLit true), st)
      | .false_ => some (some (.boolLit false), st)
      | .lparen => parseGroupedExpressionF fuel st
      | .if_ => parseIfExpressionF fuel st
      | .function => parseFunctionLiteralF fuel st
      | .lbracket => parseArrayLiteralF fuel st
      | t => some (none, addError st ("no prefix parse function for " ++ t.str ++ " found"))
    match dispatched with
    | none => none
    | some (left, st1) => parseExprLoopF fuel prec left st1
termination_by structural fuel => fuel

/-- The `for` loop of `parseExpression`: while the current token is not
a semicolon and the binding power of `peek` exceeds `prec`, consume an
infix parse function (returning `left` unchanged when none is
registered for `peek`). -/
def parseExprLoopF : Nat → Nat → Option Expr → PState → Option (Option Expr × PState)
  | 0, _, _, _ => none
  | fuel + 1, prec, left, st =>
    if !(st.cur.type == .semicolon) && prec < precOf st.peek.type then
      if hasInfixFn st.peek.type then
        let st1 := nextTokenP st
        match
          (match st1.cur.type with
           | .lparen => parseCallExpressionF fuel left st1
           | .lbracket => parseIndexExpressionF fuel left st1
           | _ => parseInfixExpressionF fuel left st1) with
        | none => none
        | some (left', st2) => parseExprLoopF fuel prec left' st2
      else some (left, st)
    else some (left, st)
termination_by structural fuel => fuel

/-- `Parser.parsePrefixExpression`: operator literal, advance, parse the
operand at `PREFIX` precedence. -/
def parsePrefixExpressionF : Nat → PState → Option (Option Expr × PState)
  | 0, _ => none
  | fuel + 1, st =>
    let op := st.cur.literal
    let st1 := nextTokenP st
    match parseExpressionF fuel PREFIX st1 with
    | none => none
    | some (right, st2) => some (some (.pre op right), st2)
termination_by structural fuel => fuel

/-- `Parser.parseInfixExpression`: right side parsed at the operator's
own precedence (left associativity). -/
def parseInfixExpressionF : Nat → Option Expr → PState → Option (Option Expr × PState)
  | 0, _, _ => none
  | fuel + 1, left, st =>
    let op := st.cur.literal
    let prec := precOf st.cur.type
    let st1 := nextTokenP st
    match parseExpressionF fuel prec st1 with
    | none => none
    | some (right, st2) => some (some (.inf left op right), st2)
termination_by structural fuel => fuel

/-- `Parser.parseGroupedExpression`. -/
def parseGroupedExpressionF : Nat → PState → Option (Option Expr × PState)
  | 0, _ => none
  | fuel + 1, st =>
    let st1 := nextTokenP st
    match parseExpressionF fuel LOWEST st1 with
    | none => none
    | some (e, st2) =>
      match expectPeek .rparen st2 with
      | (false, st3) => some (none, st3)
      | (true, st3) => some (e, st3)
termination_by structural fuel => fuel

/-- `Parser.parseIfExpression`. -/
def parseIfExpressionF : Nat → PState → Option (Option Expr × PState)
  | 0, _ => none
  | fuel + 1, st =>
    match expectPeek .lparen st with
    | (false, st1) => some (none, st1)
    | (true, st1) =>
      let st2 := nextTokenP st1
      match parseExpressionF fuel LOWEST st2 with
      | none => none
      | some (cond, st3) =>
        match expectPeek .rparen st3 with
        | (false, st4) => some (none, st4)
        | (true, st4) =>
          match expectPeek .lbrace st4 with
          | (false, st5) => some (none, st5)
          | (true, st5) =>
            match parseBlockStatementF fuel st5 with
            | none => none
            | some (cons, st6) =>
              if st6.peek.type == .else_ then
                let st7 := nextTokenP st6
                match expectPeek .lbrace st7 with
                | (false, st8) => some (none, st8)
                | (true, st8) =>
                  match parseBlockStatementF fuel st8 with
                  | none => none
                  | some (alt, st9) => some (some (.ifE cond cons (some alt)), st9)
              else some (some (.ifE cond cons none), st6)
termination_by structural fuel => fuel

/-- `Parser.parseBlockStatement`: statements until `RBRACE` or `EOF`. -/
def parseBlockStatementF : Nat → PState → Option (List Stmt × PState)
  | 0, _ => none
  | fuel + 1, st => parseBlockLoopF fuel (nextTokenP st)
termination_by structural fuel => fuel

/-- The collection loop of `parseBlockStatement`. -/
def parseBlockLoopF : Nat → PState → Option (List Stmt × PState)
  | 0, _ => none
  | fuel + 1, st =>
    if !(st.cur.type == .rbrace) && !(st.cur.type == .eof) then
      match parseStatementF fuel st with
      | none => none
      | some (stmtOpt, st') =>
        match parseBlockLoopF fuel (nextTokenP st') with
        | none => none
        | some (rest, st'') =>
          some ((match stmtOpt with | some s => s :: rest | none => rest), st'')
    else some ([], st)
termination_by structural fuel => fuel

/-- `Parser.parseFunctionLiteral`. -/
def parseFunctionLiteralF : Nat → PState → Option (Option Expr × PState)
  | 0, _ => none
  | fuel + 1, st =>
    match expectPeek .lparen st with
    | (false, st1) => some (none, st1)
    | (true, st1) =>
      match parseFunctionParametersF fuel st1 with
      | none => none
      | some (params, st2) =>
        match expectPeek .lbrace st2 with
        | (false, st3) => some (none, st3)
        | (true, st3) =>
          match parseBlockStatementF fuel st3 with
          | none => none
          | some (body, st4) => some (some (.fnLit params body), st4)
termination_by structural fuel => fuel

/-- `Parser.parseFunctionParameters`.  Go returns a nil slice both for a
zero-parameter list and on a missing `RPAREN`; nil and empty parameter
slices are indistinguishable downstream (both Inspect and
`extendFunctionEnv` only iterate), so both are `[]` here. -/
def parseFunctionParametersF : Nat → PState → Option (List String × PState)
  | 0, _ => none
  | fuel + 1, st =>
    if st.peek.type == .rparen then some ([], nextTokenP st)
    else
      let st1 := nextTokenP st
      match parseFnParamsLoopF fuel [st1.cur.literal] st1 with
      | none => none
      | some (params, st2) =>
        match expectPeek .rparen st2 with
        | (false, st3) => some ([], st3)
        | (true, st3) => some (params.reverse, st3)

/-- The comma loop of `parseFunctionParameters` (accumulator reversed). -/
def parseFnParamsLoopF : Nat → List String → PState → Option (List String × PState)
  | 0, _, _ => none
  | fuel + 1, acc, st =>
    if st.peek.type == .comma then
      let st1 := nextTokenP (nextTokenP st)
      parseFnParamsLoopF fuel (st1.cur.literal :: acc) st1
    else some (acc, st)
termination_by structural fuel => fuel

/-- `Parser.parseCallExpression`: arguments via `parseExpressionList`. -/
def parseCallExpressionF : Nat → Option Expr → PState → Option (Option Expr × PState)
  | 0, _, _ => none
  | fuel + 1, fn, st =>
    match parseExpressionListF fuel .rparen st with
    | none => none
    | some (args, st1) => some (some (.call fn args), st1)
termination_by structural fuel => fuel

/-- `Parser.parseArrayLiteral`. -/
def parseArrayLiteralF : Nat → PState → Option (Option Expr × PState)
  | 0, _ => none
  | fuel + 1, st =>
    match parseExpressionListF fuel .rbracket st with
    | none => none
    | some (elems, st1) => some (some (.arrayLit elems), st1)
termination_by structural fuel => fuel

/-- `Parser.parseExpressionList`: empty list when `peek` is the end
token, otherwise comma-separated expressions; a missing end token
records an error and returns the nil slice (`none`). -/
def parseExpressionListF : Nat → TokType → PState → Option (Option (List (Option Expr)) × PState)
  | 0, _, _ => none
  | fuel + 1, endT, st =>
    if st.peek.type == endT then some (some [], nextTokenP st)
    else
      let st1 := nextTokenP st
      match parseExpressionF fuel LOWEST st1 with
      | none => none
      | some (e1, st2) =>
        match parseExprListLoopF fuel [e1] st2 with
        | none => none
        | some (acc, st3) =>
          match expectPeek endT st3 with
          | (false, st4) => some (none, st4)
          | (true, st4) => some (some acc.reverse, st4)
termination_by structural fuel => fuel

/-- The comma loop of `parseExpressionList` (accumulator reversed). -/
def parseExprListLoopF : Nat → List (Option Expr) → PState → Option (List (Option Expr) × PState)
  | 0, _, _ => none
  | fuel + 1, acc, st =>
    if st.peek.type == .comma then
      let st1 := nextTokenP (nextTokenP st)
      match parseExpressionF fuel LOWEST st1 with
      | none => none
      | some (e, st2) => parseExprListLoopF fuel (e :: acc) st2
    else some (acc, st)
termination_by structural fuel => fuel

/-- `Parser.parseIndexExpression`. -/
def parseIndexExpressionF : Nat → Option Expr → PState → Option (Option Expr × PState)
  | 0, _, _ => none
  | fuel + 1, left, st =>
    let st1 := nextTokenP st
    match parseExpressionF fuel LOWEST st1 with
    | none => none
    | some (idx, st2) =>
      match expectPeek .rbracket st2 with
      | (false, st3) => some (none, st3)
      | (true, st3) => some (some (.indexE left idx), st3)
termination_by structural fuel => fuel

end

/-- Parse a source string with the given fuel, returning the program's
statements and the final parser state (with its error list). -/
def parseSource (src : String) (fuel : Nat) : Option (List Stmt × PState) :=
  parseProgramF fuel (mkParser src)

/-- The parse errors of a source (when parsing terminates). -/
def parseErrors (src : String) (fuel : Nat) : Option (List String) :=
  (parseSource src fuel).map (fun r => r.2.errors)

example : parseErrors "return 5;" 32 = some [] := by decide

example : parseErrors "return 5" 32 =
    some ["expected next token to be ;, got EOF instead"] := by decide

example : parseErrors "let x = 5" 32 = some [] := by decide

/-! ## Values and environments (`object/object.go`)

Runtime values are the eight tagged variants.  Two Go-level facts are
carried explicitly:

* Go's `TRUE`/`FALSE` are shared singleton allocations, compared by
  pointer in `==`/`!=`, `!`, and truthiness; but
  `evalStringInfixExpression` allocates *fresh* `Boolean` structs.  A
  boolean value therefore carries a `shared` flag: `true` for the
  singletons produced by `nativeBoolToBooleanObject`, `false` for fresh
  allocations.  Pointer equality (`ptrEq`) holds only between shared
  singletons of the same value and between `NULL`s; distinct fresh
  allocations are never pointer-equal.  (Pointer identity of values
  aliased through the environment, e.g. `let f = fn(){}; f == f`, is
  not modelled; no claim depends on it.)

* Go interface values can be nil: `Eval` returns nil for node kinds
  without a case and for `let` statements, and nil can be stored in
  environments and passed as an argument.  A possibly-nil value is
  `Option Obj` throughout.

Environments are mutable and shared (closures hold references), so they
live in a store: a list of frames addressed by index.  A frame's
`outer` is an index of a strictly older frame, since
`NewEnclosedEnvironment` only ever links to an environment that already
exists; `envGet` walks the chain with internal fuel `σ.length + 1`,
which suffices on every store whose `outer` links decrease. -/

inductive Obj where
  | integer (v : Int)
  | strV (s : String)
  | boolean (v : Bool) (shared : Bool)
  | null
  | returnValue (v : Option Obj)
  | error (msg : String)
  | function (params : List String) (body : List Stmt) (env : Nat)
  | builtin (name : String)

/-- `Object.Type()`: the stable type-tag strings of `object.go`. -/
def Obj.typeTag : Obj → String
  | .integer _ => "INTEGER"
  | .strV _ => "STRING"
  | .boolean _ _ => "BOOLEAN"
  | .null => "NULL"
  | .returnValue _ => "RETURN_VALUE"
  | .error _ => "ERROR"
  | .function .. => "FUNCTION"
  | .builtin _ => "BUILTIN"

/-- `Error.Inspect` (`object/object.go`). -/
def errorInspect (msg : String) : String := "ERROR: " ++ msg

/-- `Integer.Inspect` (`object/object.go`, `%d` formatting). -/
def integerInspect (v : Int) : String := toString v

/-- One environment: local bindings plus an optional outer reference.
The Go `map[string]Object` is an association list updated by prepending;
lookup takes the first match, which is observationally the map. -/
structure Frame where
  bindings : List (String × Option Obj)
  outer : Option Nat

/-- The heap of environments. -/
abbrev Store := List Frame

/-- `object.NewEnvironment()`: one empty frame with no outer. -/
def initialStore : Store := [⟨[], none⟩]

/-- Map lookup in a frame's bindings (`obj, ok := e.store[identifier]`):
`some v` means found (with `v` possibly a stored nil). -/
def lookupBind : List (String × Option Obj) → String → Option (Option Obj)
  | [], _ => none
  | (k, v) :: rest, x => if k == x then some v else lookupBind rest x

/-- The recursion of `Environment.Get` with explicit fuel over the
outer chain. -/
def envGetAux (σ : Store) : Nat → Nat → String → Option (Option Obj)
  | 0, _, _ => none
  | g + 1, i, x =>
    match σ[i]? with
    | none => none
    | some fr =>
      match lookupBind fr.bindings x with
      | some v => some v
      | none =>
        match fr.outer with
        | some j => envGetAux σ g j x
        | none => none

/-- `Environment.Get`: innermost binding, walking outward.  The fuel
`σ.length + 1` provably suffices whenever outer links point to older
frames (`envGetAux_stable`). -/
def envGet (σ : Store) (i : Nat) (x : String) : Option (Option Obj) :=
  envGetAux σ (σ.length + 1) i x

/-- `Environment.Set`: writes locally into frame `i`. -/
def envSet (σ : Store) (i : Nat) (x : String) (v : Option Obj) : Store :=
  match σ[i]? with
  | some fr => σ.set i { fr with bindings := (x, v) :: fr.bindings }
  | none => σ

/-- The bindings produced by the `Set` loop of `extendFunctionEnv`:
each parameter bound to the argument at the same index, later `Set`s
shadowing earlier ones. -/
def bindParams (ps : List String) (args : List (Option Obj)) : List (String × Option Obj) :=
  (ps.zip args).foldl (fun acc pa => (pa.1, pa.2) :: acc) []

/-- Store well-formedness: every frame's outer link points to a
strictly older frame.  Holds for every store the evaluator builds,
since `NewEnclosedEnvironment` appends a frame linking to an existing
one. -/
def wfAux : Nat → List Frame → Bool
  | _, [] => true
  | i, fr :: rest =>
    (match fr.outer with
     | some j => decide (j < i)
     | none => true) && wfAux (i + 1) rest

/-- Boolean well-formedness of a whole store. -/
def wfStore (σ : Store) : Bool := wfAux 0 σ

/-! ## Evaluator (`parser/parser.go`, `package evaluator` section)

The result of one evaluation: `div` is fuel exhaustion (a Go evaluation
that has not finished within the fuel — with every fuel, a
non-terminating one), `panicked` is a Go runtime panic (nil-interface
method call, argument index out of range, integer division by zero),
and `ok v σ` is a normal return of the possibly-nil value `v` with the
mutated environment store `σ`. -/

inductive EvalR where
  | div
  | panicked
  | ok (v : Option Obj) (σ : Store)

/-- Result of `evalExpressions`: a list of argument values. -/
inductive ExprsR where
  | div
  | panicked
  | ok (vs : List (Option Obj)) (σ : Store)

/-- Result of the pure operator helpers, which cannot touch the store
but can panic. -/
inductive PVal where
  | panicked
  | val (v : Option Obj)

/-- `isError`: non-nil and of type `ERROR`. -/
def isError : Option Obj → Bool
  | some (.error _) => true
  | _ => false

/-- `nativeBoolToBooleanObject`: the shared `TRUE`/`FALSE` singleton. -/
def nativeBoolToBooleanObject (b : Bool) : Obj := .boolean b true

/-- Go `int64` wrap-around at `2^64`. -/
def wrap64 (x : Int) : Int := (x + 2 ^ 63) % 2 ^ 64 - 2 ^ 63

/-- `evalBangOperatorRight`: a pointer `switch` against the `TRUE`,
`FALSE` and `NULL` singletons; everything else (including nil and fresh
`Boolean` allocations, which are different pointers) is the default
case and yields `FALSE`. -/
def evalBangOperatorRight (v : Option Obj) : Obj :=
  match v with
  | some (.boolean true true) => nativeBoolToBooleanObject false
  | some (.boolean false true) => nativeBoolToBooleanObject true
  | some .null => nativeBoolToBooleanObject true
  | _ => nativeBoolToBooleanObject false

/-- `isTruthy`: pointer `switch`; `NULL` and the shared `FALSE` are
false, everything else — nil, integers, fresh booleans — is true. -/
def isTruthy : Option Obj → Bool
  | some .null => false
  | some (.boolean true true) => true
  | some (.boolean false true) => false
  | _ => true

/-- Go pointer equality between evaluator values, as observable in the
`==`/`!=` branch of `evalInfixExpression`: shared singletons are equal
exactly to themselves; fresh allocations are never pointer-equal. -/
def ptrEq (l r : Obj) : Bool :=
  match l, r with
  | .boolean a true, .boolean b true => a == b
  | .null, .null => true
  | _, _ => false

/-- `unwrapReturnValue`. -/
def unwrapReturnValue : Option Obj → Option Obj
  | some (.returnValue w) => w
  | x => x

/-- `evalMinusPrefixOperatorRight` (a nil operand panics at
`right.Type()`). -/
def evalMinusPrefixOperatorRight : Option Obj → PVal
  | none => .panicked
  | some (.integer n) => .val (some (.integer (wrap64 (-n))))
  | some o => .val (some (.error ("unknown operator: -" ++ o.typeTag)))

/-- `evalPrefixExpression`. -/
def evalPrefixExpressionP (op : String) (right : Option Obj) : PVal :=
  if op == "!" then .val (some (evalBangOperatorRight right))
  else if op == "-" then evalMinusPrefixOperatorRight right
  else
    match right with
    | none => .panicked
    | some o => .val (some (.error ("unknown operator: " ++ op ++ o.typeTag)))

/-- `evalIntegerInfixExpression`: both operands are Integers (the
caller's guard); `/` is the host's truncating `int64` division, which
panics on a zero divisor and wraps on overflow. -/
def evalIntegerInfixP (op : String) (lo ro : Obj) : PVal :=
  match lo, ro with
  | .integer a, .integer b =>
    if op == "+" then .val (some (.integer (wrap64 (a + b))))
    else if op == "-" then .val (some (.integer (wrap64 (a - b))))
    else if op == "*" then .val (some (.integer (wrap64 (a * b))))
    else if op == "/" then
      if b == 0 then .panicked else .val (some (.integer (wrap64 (a.tdiv b))))
    else if op == "<" then .val (some (nativeBoolToBooleanObject (decide (a < b))))
    else if op == ">" then .val (some (nativeBoolToBooleanObject (decide (b < a))))
    else if op == "==" then .val (some (nativeBoolToBooleanObject (a == b)))
    else if op == "!=" then .val (some (nativeBoolToBooleanObject (a != b)))
    else .val (some (.error ("unknown operator: INTEGER " ++ op ++ " INTEGER")))
  | _, _ => .panicked

/-- `evalStringInfixExpression`: note the *fresh* `Boolean` allocations
for `==`/`!=` (not the shared singletons). -/
def evalStringInfixP (op : String) (lo ro : Obj) : PVal :=
  match lo, ro with
  | .strV a, .strV b =>
    if op == "+" then .val (some (.strV (a ++ b)))
    else if op == "==" then .val (some (.boolean (a == b) false))
    else if op == "!=" then .val (some (.boolean (a != b) false))
    else .val (some (.error ("unknown operator: STRING " ++ op ++ " STRING")))
  | _, _ => .panicked

/-- `evalInfixExpression`: integer pair, string pair, type mismatch,
pointer-equality `==`/`!=`, unknown operator — in that order.  A nil
operand panics (`.Type()` on a nil interface). -/
def evalInfixExpressionP (op : String) (l r : Option Obj) : PVal :=
  match l, r with
  | none, _ => .panicked
  | _, none => .panicked
  | some lo, some ro =>
    if lo.typeTag == "INTEGER" && ro.typeTag == "INTEGER" then evalIntegerInfixP op lo ro
    else if lo.typeTag == "STRING" && ro.typeTag == "STRING" then evalStringInfixP op lo ro
    else if !(lo.typeTag == ro.typeTag) then
      .val (some (.error ("type mismatch: " ++ lo.typeTag ++ " " ++ op ++ " " ++ ro.typeTag)))
    else if op == "==" then .val (some (nativeBoolToBooleanObject (ptrEq lo ro)))
    else if op == "!=" then .val (some (nativeBoolToBooleanObject (!ptrEq lo ro)))
    else
      .val (some (.error ("unknown operator: " ++ lo.typeTag ++ " " ++ op ++ " " ++ ro.typeTag)))

/-- `evalIdentifier`: environment lookup, then the read-only `builtins`
table (whose only entry is `len`), then the "identifier not found"
error. -/
def evalIdentifier (name : String) (env : Nat) (σ : Store) : EvalR :=
  match envGet σ env name with
  | some v => .ok v σ
  | none =>
    if name == "len" then .ok (some (.builtin "len")) σ
    else .ok (some (.error ("identifier not found: " ++ name))) σ

/-- The `len` builtin from the `builtins` map: exactly one argument of
type String, yielding its byte length; a nil argument panics at
`args[0].Type()`. -/
def lenBuiltin (args : List (Option Obj)) (σ : Store) : EvalR :=
  if !(args.length == 1) then
    .ok (some (.error ("wrong number of arguments. got=" ++ toString args.length ++ ", want=1"))) σ
  else
    match args with
    | [some (.strV s)] => .ok (some (.integer (s.utf8ByteSize : Int))) σ
    | [some o] => .ok (some (.error ("argument to `len` not supported, got " ++ o.typeTag))) σ
    | _ => .panicked

/-- The node sum `Eval` dispatches on (`ast.Node`). -/
inductive Node where
  | prog (stmts : List Stmt)
  | stmt (s : Stmt)
  | block (stmts : List Stmt)
  | expr (e : Expr)

mutual

/-- `Eval(node, env)`: the top-level type switch.  `ArrayLiteral` and
`IndexExpression` have no case and fall through to `return nil`, as
does a `LetStatement` after its `env.Set`. -/
def evalNodeF : Nat → Node → Nat → Store → EvalR
  | 0, _, _, _ => .div
  | fuel + 1, node, env, σ =>
    match node with
    | .prog stmts => evalProgramF fuel stmts env σ
    | .stmt s =>
      match s with
      | .exprS e => evalOptExprF fuel e env σ
      | .returnS ve =>
        match evalOptExprF fuel ve env σ with
        | .div => .div
        | .panicked => .panicked
        | .ok v σ' => if isError v then .ok v σ' else .ok (some (.returnValue v)) σ'
      | .letS name ve =>
        match evalOptExprF fuel ve env σ with
        | .div => .div
        | .panicked => .panicked
        | .ok v σ' => if isError v then .ok v σ' else .ok none (envSet σ' env name v)
    | .block stmts => evalBlockF fuel stmts env σ
    | .expr e =>
      match e with
      | .intLit v => .ok (some (.integer v)) σ
      | .strLit s => .ok (some (.strV s)) σ
      | .boolLit b => .ok (some (nativeBoolToBooleanObject b)) σ
      | .ident name => evalIdentifier name env σ
      | .pre op r =>
        match evalOptExprF fuel r env σ with
        | .div => .div
        | .panicked => .panicked
        | .ok v σ' =>
          if isError v then .ok v σ'
          else
            match evalPrefixExpressionP op v with
            | .panicked => .panicked
            | .val w => .ok w σ'
      | .inf l op r =>
        match evalOptExprF fuel l env σ with
        | .div => .div
        | .panicked => .panicked
        | .ok lv σ1 =>
          if isError lv then .ok lv σ1
          else
            match evalOptExprF fuel r env σ1 with
            | .div => .div
            | .panicked => .panicked
            | .ok rv σ2 =>
              if isError rv then .ok rv σ2
              else
                match evalInfixExpressionP op lv rv with
                | .panicked => .panicked
                | .val w => .ok w σ2
      | .ifE cond cons alt => evalIfExpressionF fuel cond cons alt env σ
      | .fnLit ps body => .ok (some (.function ps body env)) σ
      | .call fnE args =>
        match evalOptExprF fuel fnE env σ with
        | .div => .div
        | .panicked => .panicked
        | .ok fv σ1 =>
          if isError fv then .ok fv σ1
          else
            match evalExpressionsF fuel (args.getD []) env σ1 [] with
            | .div => .div
            | .panicked => .panicked
            | .ok vs σ2 =>
              match vs with
              | [x] => if isError x then .ok x σ2 else applyFunctionF fuel fv vs σ2
              | _ => applyFunctionF fuel fv vs σ2
      | .arrayLit _ => .ok none σ
      | .indexE _ _ => .ok none σ
termination_by structural fuel => fuel

/-- `Eval` applied to a possibly-nil expression node: a nil node
matches no case of the type switch and evaluates to nil. -/
def evalOptExprF : Nat → Option Expr → Nat → Store → EvalR
  | 0, _, _, _ => .div
  | _ + 1, none, _, σ => .ok none σ
  | fuel + 1, some e, env, σ => evalNodeF fuel (.expr e) env σ
termination_by structural fuel => fuel

/-- `evalProgram`: statements in order; a `ReturnValue` is unwrapped
once and returned, an `Error` is returned as-is, and otherwise the last
statement's value (nil included) is the program's value. -/
def evalProgramF : Nat → List Stmt → Nat → Store → EvalR
  | 0, _, _, _ => .div
  | _ + 1, [], _, σ => .ok none σ
  | fuel + 1, s :: rest, env, σ =>
    match evalNodeF fuel (.stmt s) env σ with
    | .div => .div
    | .panicked => .panicked
    | .ok r σ' =>
      match r with
      | some (.returnValue v) => .ok v σ'
      | some (.error m) => .ok (some (.error m)) σ'
      | _ =>
        match rest with
        | [] => .ok r σ'
        | _ :: _ => evalProgramF fuel rest env σ'
termination_by structural fuel => fuel

/-- `evalBlockStatement`: statements in order; a non-nil result of type
`RETURN_VALUE` or `ERROR` is returned **without unwrapping**. -/
def evalBlockF : Nat → List Stmt → Nat → Store → EvalR
  | 0, _, _, _ => .div
  | _ + 1, [], _, σ => .ok none σ
  | fuel + 1, s :: rest, env, σ =>
    match evalNodeF fuel (.stmt s) env σ with
    | .div => .div
    | .panicked => .panicked
    | .ok r σ' =>
      if (match r with
          | some o => o.typeTag == "RETURN_VALUE" || o.typeTag == "ERROR"
          | none => false) then .ok r σ'
      else
        match rest with
        | [] => .ok r σ'
        | _ :: _ => evalBlockF fuel rest env σ'
termination_by structural fuel => fuel

/-- `evalExpressions`: left to right, returning the one-element list
`[err]` as soon as any argument evaluates to an error (the accumulator
mirrors Go's `result` slice and is reversed on normal exit). -/
def evalExpressionsF : Nat → List (Option Expr) → Nat → Store → List (Option Obj) → ExprsR
  | 0, _, _, _, _ => .div
  | _ + 1, [], _, σ, acc => .ok acc.reverse σ
  | fuel + 1, e :: rest, env, σ, acc =>
    match evalOptExprF fuel e env σ with
    | .div => .div
    | .panicked => .panicked
    | .ok v σ' =>
      if isError v then .ok [v] σ'
      else evalExpressionsF fuel rest env σ' (v :: acc)
termination_by structural fuel => fuel

/-- `evalIfExpression`. -/
def evalIfExpressionF : Nat → Option Expr → List Stmt → Option (List Stmt) → Nat → Store → EvalR
  | 0, _, _, _, _, _ => .div
  | fuel + 1, cond, cons, alt, env, σ =>
    match evalOptExprF fuel cond env σ with
    | .div => .div
    | .panicked => .panicked
    | .ok c σ' =>
      if isError c then .ok c σ'
      else if isTruthy c then evalNodeF fuel (.block cons) env σ'
      else
        match alt with
        | some a => evalNodeF fuel (.block a) env σ'
        | none => .ok (some .null) σ'
termination_by structural fuel => fuel

/-- `applyFunction`: a `Function` gets a fresh child of its *captured*
environment (`extendFunctionEnv`: `NewEnclosedEnvironment(fn.Env)` plus
one `Set` per parameter, indexing `args` without an arity check — too
few arguments is an index-out-of-range panic), evaluates its body
there, and unwraps one `ReturnValue` layer; a `Builtin` invokes its
routine; any other callee is the "not a function" error (nil callee:
panic at `fn.Type()`). -/
def applyFunctionF : Nat → Option Obj → List (Option Obj) → Store → EvalR
  | 0, _, _, _ => .div
  | fuel + 1, fv, args, σ =>
    match fv with
    | some (.function ps body envIdx) =>
      if args.length < ps.length then .panicked
      else
        match evalNodeF fuel (.block body) σ.length (σ ++ [⟨bindParams ps args, some envIdx⟩]) with
        | .div => .div
        | .panicked => .panicked
        | .ok r σ' => .ok (unwrapReturnValue r) σ'
    | some (.builtin _) => lenBuiltin args σ
    | some other => .ok (some (.error ("not a function: " ++ other.typeTag))) σ
    | none => .panicked
termination_by structural fuel => fuel

end

/-- Lex, parse and evaluate a source in a fresh environment (the REPL
pipeline: `Eval(program, NewEnvironment())`). -/
def runProgram (src : String) (parseFuel evalFuel : Nat) : Option EvalR :=
  (parseSource src parseFuel).map (fun r => evalNodeF evalFuel (.prog r.1) 0 initialStore)

/-- The value produced by a run that parses and evaluates normally. -/
def runValue (src : String) (parseFuel evalFuel : Nat) : Option (Option Obj) :=
  match runProgram src parseFuel evalFuel with
  | some (.ok v _) => some v
  | _ => none

example : runValue "5 + 5 * 2" 32 64 = some (some (.integer 15)) := rfl
example : runValue "(1 + 2) * 3 == 9" 32 64 = some (some (.boolean true true)) := rfl
example : runValue "if (10 > 1) { if (10 > 1) { return 10; } return 1; }" 64 64 =
    some (some (.integer 10)) := rfl
example : runValue "let add = fn(a, b) { a + b; }; add(add(1,2), add(3,4));" 64 64 =
    some (some (.integer 10)) := rfl
example : runValue "let counter = fn(x) { fn() { x } }; let c = counter(42); c();" 64 64 =
    some (some (.integer 42)) := rfl
example : runValue "5 + true;" 32 64 =
    some (some (.error "type mismatch: INTEGER + BOOLEAN")) := rfl
example : runValue "foobar" 32 64 =
    some (some (.error "identifier not found: foobar")) := rfl
example : runProgram "5 / 0;" 32 64 = some .panicked := rfl
example : runValue "return if (10 > 1) { return 10; };" 64 64 =
    some (some (.returnValue (some (.integer 10)))) := rfl
example : runValue "let a = 5;" 32 64 = some none := rfl

/-! ## Claim C6: how the lexer treats `-` -/

/-- C6.  The claim says lexing `a - b` produces `IDENT("a")` followed by
`INT("-b")`.  It does not: `-` is an explicit `case` of the `NextToken`
switch and always becomes a `MINUS` token there, so `a - b` lexes as
`IDENT, MINUS, IDENT`; in particular `INT("-b")` is not among the
tokens. -/
theorem C6_counterexample :
    lexTokens "a - b".data 4 =
      [⟨.ident, "a"⟩, ⟨.minus, "-"⟩, ⟨.ident, "b"⟩, ⟨.eof, ""⟩] ∧
    (⟨.int, "-b"⟩ : Token) ∉ lexTokens "a - b".data 4 := by
  constructor
  · decide
  · decide

/-- C6 (amended).  A `-` at token start always produces `MINUS` (for
every input beginning with `-`), so `a - b` lexes as `IDENT, MINUS,
IDENT`; the sign-acceptance of `isDigitFirst` is only reachable
*inside* a number, where `readDigit` keeps consuming signs after the
first digit: `5-3` lexes as the single token `INT("5-3")`. -/
theorem C6_amended :
    lexTokens "a - b".data 4 =
      [⟨.ident, "a"⟩, ⟨.minus, "-"⟩, ⟨.ident, "b"⟩, ⟨.eof, ""⟩] ∧
    (∀ rest : List Char, (nextTokenL (lexerNew ('-' :: rest))).1 = ⟨.minus, "-"⟩) ∧
    lexTokens "5-3".data 2 = [⟨.int, "5-3"⟩, ⟨.eof, ""⟩] := by
  refine ⟨by decide, ?_, by decide⟩
  intro rest
  rfl

/-! ## Claim C7: totality of the lexer and EOF forever -/

/-- The token stream always has exactly the requested number of tokens:
`NextToken` returns a token from every state. -/
theorem lexTokensFrom_length : ∀ (n : Nat) (l : Lexer), (lexTokensFrom l n).length = n
  | 0, _ => rfl
  | n + 1, l => by
    unfold lexTokensFrom
    simp [lexTokensFrom_length n]

/-- Skipping whitespace from a state whose current character is the
0 byte does nothing. -/
theorem skipWhiteSpace_ch0 (l : Lexer) (h : l.ch = Char0) : skipWhiteSpace l = l := by
  unfold skipWhiteSpace consumeWhile
  show consumeWhileF isWS (l.input.length + 1 + 1) l = l
  rw [consumeWhileF, h]
  simp [isWS, Char0]

/-- On an exhausted lexer state (`ch` is the 0 byte and the read
position is past the input) `NextToken` returns `EOF` with empty
literal and leaves the state exhausted. -/
theorem nextTokenL_exhausted (l : Lexer) (h1 : l.ch = Char0)
    (h2 : l.input.length ≤ l.readPosition) :
    nextTokenL l = (⟨.eof, ""⟩,
      { input := l.input, ch := Char0, position := l.readPosition,
        readPosition := l.readPosition + 1 }) := by
  obtain ⟨input, ch, pos, rp⟩ := l
  simp only at h1 h2
  subst h1
  have hskip : skipWhiteSpace ⟨input, Char0, pos, rp⟩ = ⟨input, Char0, pos, rp⟩ :=
    skipWhiteSpace_ch0 _ rfl
  unfold nextTokenL
  rw [hskip]
  simp only [show (Char0 == '=') = false from rfl, show (Char0 == ';') = false from rfl,
    show (Char0 == '(') = false from rfl, show (Char0 == ')') = false from rfl,
    show (Char0 == ',') = false from rfl, show (Char0 == '+') = false from rfl,
    show (Char0 == '{') = false from rfl, show (Char0 == '}') = false from rfl,
    show (Char0 == '-') = false from rfl, show (Char0 == '!') = false from rfl,
    show (Char0 == '/') = false from rfl, show (Char0 == '*') = false from rfl,
    show (Char0 == '<') = false from rfl, show (Char0 == '>') = false from rfl,
    show (Char0 == Char0) = true from rfl, Bool.false_eq_true, if_false, if_true]
  unfold readChar
  simp [h2]

/-- C7.  Lexing is total: the stream of the first `n` tokens of any
input has exactly `n` entries (a token is always returned), and from
any exhausted lexer state every subsequent token is `EOF` with empty
literal, indefinitely. -/
theorem C7_lexing_total_eof_forever :
    (∀ (input : List Char) (n : Nat), (lexTokens input n).length = n) ∧
    (∀ l : Lexer, l.ch = Char0 → l.input.length ≤ l.readPosition →
      ∀ n : Nat, lexTokensFrom l n = List.replicate n ⟨.eof, ""⟩) := by
  constructor
  · intro input n
    exact lexTokensFrom_length n _
  · intro l h1 h2 n
    induction n generalizing l with
    | zero => rfl
    | succ n ih =>
      unfold lexTokensFrom
      rw [nextTokenL_exhausted l h1 h2]
      simp only [List.replicate_succ, List.cons.injEq, true_and]
      exact ih _ rfl (le_trans h2 (Nat.le_succ _))

/-- Witness for C7 at a concrete exhausted state (the state reached
after lexing the empty input). -/
theorem C7_witness :
    (lexTokens "ab".data 5).length = 5 ∧
    lexTokensFrom ⟨[], Char0, 0, 1⟩ 2 = List.replicate 2 ⟨.eof, ""⟩ :=
  ⟨C7_lexing_total_eof_forever.1 "ab".data 5,
   C7_lexing_total_eof_forever.2 ⟨[], Char0, 0, 1⟩ rfl (by decide) 2⟩

/-! ## Claim C1: `len("hello world")` end to end

The lexer's `NextToken` has no case for `"`, so the quote falls into the
default branch: not a letter, not a digit, hence an `ILLEGAL` token —
returned *without* advancing the lexer.  The token stream of
`len("hello world")` is therefore `IDENT, LPAREN` followed by
`ILLEGAL("\"")` forever, `EOF` never arrives, and `ParseProgram` (which
loops until `EOF`) never terminates: the program can never evaluate to
`11`.  The `len` builtin itself does behave as claimed on a String
argument. -/

/-- The lexer state stuck at the opening quote of `len("hello world")`. -/
def stuckLexer : Lexer := ⟨"len(\"hello world\")".data, '"', 4, 5⟩

/-- On the stuck state, `NextToken` returns `ILLEGAL("\"")` and does not
move: the illegal branch performs no `readChar`. -/
theorem nextTokenL_stuck : nextTokenL stuckLexer = (⟨.illegal, "\""⟩, stuckLexer) := rfl

/-- From the stuck state, every further token is the same `ILLEGAL`. -/
theorem lexTokensFrom_stuck :
    ∀ n, lexTokensFrom stuckLexer n = List.replicate n ⟨.illegal, "\""⟩ := by
  intro n
  induction n with
  | zero => rfl
  | succ n ih =>
    unfold lexTokensFrom
    rw [nextTokenL_stuck, List.replicate_succ]
    exact congrArg _ ih

/-- The parser state the program collector loops on forever: both
lookahead tokens are the stuck `ILLEGAL`, the lexer is stuck, and only
the error list keeps growing. -/
def stuckParser (E : List String) : PState :=
  ⟨⟨.illegal, "\""⟩, ⟨.illegal, "\""⟩, stuckLexer, E⟩

/-- Advancing the stuck parser changes nothing. -/
theorem nextTokenP_stuck (E : List String) : nextTokenP (stuckParser E) = stuckParser E := rfl

/-- One trip of the statement loop on the stuck state: an expression
statement with a nil expression, plus one "no prefix parse function"
error. -/
theorem parseStatementF_stuck (j : Nat) (E : List String) :
    parseStatementF (j + 4) (stuckParser E) =
      some (some (.exprS none),
        stuckParser (E ++ ["no prefix parse function for ILLEGAL found"])) := rfl

/-- `ParseProgram` on the stuck state runs out of every fuel: the Go
loop never terminates. -/
theorem parseProgramF_stuck : ∀ (fuel : Nat) (E : List String),
    parseProgramF fuel (stuckParser E) = none := by
  intro fuel
  induction fuel with
  | zero => intro E; rfl
  | succ f ih =>
    intro E
    cases f with
    | zero => rfl
    | succ g =>
      cases g with
      | zero => rfl
      | succ h =>
        cases h with
        | zero => rfl
        | succ k =>
          cases k with
          | zero => rfl
          | succ j =>
            have hstep : parseProgramF (j + 4 + 1) (stuckParser E) =
                (match parseProgramF (j + 4)
                    (stuckParser (E ++ ["no prefix parse function for ILLEGAL found"])) with
                 | none => none
                 | some (rest, st) => some (Stmt.exprS none :: rest, st)) := rfl
            rw [hstep, ih]

/-- Parsing `len("hello world")` never terminates, for every fuel: after
nine steps the parser reaches the stuck `ILLEGAL` state (having parsed
one call-expression statement with a failed argument list) and loops. -/
theorem parseProgram_c1_diverges :
    ∀ fuel, parseProgramF fuel (mkParser "len(\"hello world\")") = none
  | 0 => rfl
  | 1 => rfl
  | 2 => rfl
  | 3 => rfl
  | 4 => rfl
  | 5 => rfl
  | 6 => rfl
  | 7 => rfl
  | 8 => rfl
  | j + 9 => by
    have hstep : parseProgramF (j + 9) (mkParser "len(\"hello world\")") =
        (match parseProgramF (j + 8)
            (stuckParser ["no prefix parse function for ILLEGAL found",
                          "expected next token to be ), got ILLEGAL instead"]) with
         | none => none
         | some (rest, st) =>
           some (Stmt.exprS (some (.call (some (.ident "len")) none)) :: rest, st)) := rfl
    rw [hstep, parseProgramF_stuck]

/-- C1.  Evaluating the code at the failing input `len("hello world")`:
the token stream after `IDENT("len"), LPAREN` is `ILLEGAL("\"")`
forever and contains no `EOF`, parsing diverges for every fuel (so no
value — let alone Integer 11 — is ever produced), while the `len`
builtin itself, applied to the String `"hello world"`, does return the
Integer 11 the claim describes. -/
theorem C1_len_end_to_end_stuck :
    (∀ n, lexTokens "len(\"hello world\")".data (n + 2) =
      ⟨.ident, "len"⟩ :: ⟨.lparen, "("⟩ :: List.replicate n ⟨.illegal, "\""⟩) ∧
    (∀ n, (⟨.eof, ""⟩ : Token) ∉ lexTokens "len(\"hello world\")".data n) ∧
    (∀ fuel, parseProgramF fuel (mkParser "len(\"hello world\")") = none) ∧
    lenBuiltin [some (.strV "hello world")] initialStore =
      .ok (some (.integer 11)) initialStore := by
  have htok : ∀ n, lexTokens "len(\"hello world\")".data (n + 2) =
      ⟨.ident, "len"⟩ :: ⟨.lparen, "("⟩ :: List.replicate n ⟨.illegal, "\""⟩ := by
    intro n
    have h2 : lexTokens "len(\"hello world\")".data (n + 2) =
        ⟨.ident, "len"⟩ :: ⟨.lparen, "("⟩ :: lexTokensFrom stuckLexer n := rfl
    rw [h2, lexTokensFrom_stuck]
  refine ⟨htok, ?_, parseProgram_c1_diverges, rfl⟩
  intro n
  match n with
  | 0 => simp [lexTokens, lexTokensFrom]
  | 1 => decide
  | n + 2 =>
    rw [htok n]
    simp only [List.mem_cons, List.mem_replicate]
    rintro (h | h | ⟨-, h⟩) <;> exact absurd h (by decide)

/-! ## Claim C2: trailing semicolon of a return statement -/

/-- C2.  The claim says a return statement records no parse error when
the trailing semicolon is absent, exactly like `let`.  Parsing
`return 5` refutes it: `parseReturnStatement` calls
`expectPeek(SEMICOLON)` unconditionally, so the missing semicolon
records `expected next token to be ;, got EOF instead` (compare
`let x = 5`, which parses with no error). -/
theorem C2_counterexample :
    parseErrors "return 5" 32 = some ["expected next token to be ;, got EOF instead"] ∧
    ¬ parseErrors "return 5" 32 = some [] ∧
    parseErrors "let x = 5" 32 = some [] := by
  refine ⟨by decide, by decide, by decide⟩

/-- C2 (amended).  After parsing the return expression the parser calls
`expectPeek(SEMICOLON)` unconditionally: a present semicolon is
consumed with no error recorded, an absent one leaves the position
unchanged and records exactly one `peekError` — unlike `let`, which
consumes a present semicolon and records nothing when it is absent.
(`addError` appends exactly one message; `nextTokenP` touches none.) -/
theorem C2_return_semicolon_amended :
    (∀ (fuel : Nat) (st : PState) (v : Option Expr) (st2 : PState),
      parseExpressionF fuel LOWEST (nextTokenP st) = some (v, st2) →
      parseReturnStatementF (fuel + 1) st =
        some (some (.returnS v),
          if st2.peek.type == .semicolon then nextTokenP st2
          else addError st2 (peekErrorMsg .semicolon st2.peek.type))) ∧
    (∀ (st : PState) (m : String), (addError st m).errors = st.errors ++ [m]) ∧
    (∀ st : PState, (nextTokenP st).errors = st.errors) ∧
    (∀ (fuel : Nat) (st st1 st2 : PState) (v : Option Expr) (st3 : PState),
      expectPeek .ident st = (true, st1) →
      expectPeek .assign st1 = (true, st2) →
      parseExpressionF fuel LOWEST (nextTokenP st2) = some (v, st3) →
      parseLetStatementF (fuel + 1) st =
        some (some (.letS st1.cur.literal v),
          if st3.peek.type == .semicolon then nextTokenP st3 else st3)) := by
  refine ⟨?_, fun st m => rfl, fun st => rfl, ?_⟩
  · intro fuel st v st2 h
    unfold parseReturnStatementF
    simp only [h, expectPeek]
    by_cases hc : (st2.peek.type == TokType.semicolon) = true
    · simp [hc]
    · simp [hc]
  · intro fuel st st1 st2 v st3 h1 h2 h3
    have hc1 : (st.peek.type == TokType.ident) = true := by
      by_contra hc
      unfold expectPeek at h1
      rw [if_neg hc] at h1
      exact absurd (congrArg Prod.fst h1) (by simp)
    have hs1 : nextTokenP st = st1 := by
      unfold expectPeek at h1
      rw [if_pos hc1] at h1
      exact congrArg Prod.snd h1
    subst hs1
    have hc2 : ((nextTokenP st).peek.type == TokType.assign) = true := by
      by_contra hc
      unfold expectPeek at h2
      rw [if_neg hc] at h2
      exact absurd (congrArg Prod.fst h2) (by simp)
    have hs2 : nextTokenP (nextTokenP st) = st2 := by
      unfold expectPeek at h2
      rw [if_pos hc2] at h2
      exact congrArg Prod.snd h2
    subst hs2
    simp [parseLetStatementF, expectPeek, hc1, hc2, h3]

/-- Witness for C2 (amended) at `return 5` (semicolon absent: one error
appended) and `let x = 5` (semicolon absent: no error). -/
theorem C2_return_semicolon_amended_witness :
    parseReturnStatementF 31 (mkParser "return 5") =
      some (some (.returnS (some (.intLit 5))),
        ⟨⟨.int, "5"⟩, ⟨.eof, ""⟩, ⟨"return 5".data, Char0, 9, 10⟩,
         ["expected next token to be ;, got EOF instead"]⟩) ∧
    parseLetStatementF 31 (mkParser "let x = 5") =
      some (some (.letS "x" (some (.intLit 5))),
        ⟨⟨.int, "5"⟩, ⟨.eof, ""⟩, ⟨"let x = 5".data, Char0, 10, 11⟩, []⟩) := by
  constructor
  · have h := C2_return_semicolon_amended.1 30 (mkParser "return 5")
      (some (.intLit 5)) ⟨⟨.int, "5"⟩, ⟨.eof, ""⟩, ⟨"return 5".data, Char0, 9, 10⟩, []⟩ rfl
    simpa using h
  · have h := C2_return_semicolon_amended.2.2.2 30 (mkParser "let x = 5")
      ⟨⟨.ident, "x"⟩, ⟨.assign, "="⟩, ⟨"let x = 5".data, ' ', 7, 8⟩, []⟩
      ⟨⟨.assign, "="⟩, ⟨.int, "5"⟩, ⟨"let x = 5".data, Char0, 9, 10⟩, []⟩
      (some (.intLit 5)) ⟨⟨.int, "5"⟩, ⟨.eof, ""⟩, ⟨"let x = 5".data, Char0, 10, 11⟩, []⟩
      rfl rfl rfl
    simpa using h

/-! ## Claim C3: error propagation -/

/-- An `Error` value is recognised by `isError`. -/
theorem isError_error (m : String) : isError (some (.error m)) = true := rfl

/-- C3.  If any guarded sub-evaluation produces `Error(m)`, the
enclosing evaluation produces `Error(m)` with the same message,
unmodified: prefix operand, both infix operands, if-condition, let
right-hand side, return expression, callee, and every call argument
(the first erroring argument collapses `evalExpressions` to the
singleton `[err]`, which the call expression returns). -/
theorem C3_error_propagation :
    (∀ (fuel : Nat) (op : String) (r : Option Expr) (env : Nat) (σ : Store) (m : String)
       (σ' : Store),
      evalOptExprF fuel r env σ = .ok (some (.error m)) σ' →
      evalNodeF (fuel + 1) (.expr (.pre op r)) env σ = .ok (some (.error m)) σ') ∧
    (∀ (fuel : Nat) (l : Option Expr) (op : String) (r : Option Expr) (env : Nat) (σ : Store)
       (m : String) (σ' : Store),
      evalOptExprF fuel l env σ = .ok (some (.error m)) σ' →
      evalNodeF (fuel + 1) (.expr (.inf l op r)) env σ = .ok (some (.error m)) σ') ∧
    (∀ (fuel : Nat) (l : Option Expr) (op : String) (r : Option Expr) (env : Nat) (σ : Store)
       (lv : Option Obj) (σ1 : Store) (m : String) (σ2 : Store),
      evalOptExprF fuel l env σ = .ok lv σ1 → isError lv = false →
      evalOptExprF fuel r env σ1 = .ok (some (.error m)) σ2 →
      evalNodeF (fuel + 1) (.expr (.inf l op r)) env σ = .ok (some (.error m)) σ2) ∧
    (∀ (fuel : Nat) (c : Option Expr) (cons : List Stmt) (alt : Option (List Stmt)) (env : Nat)
       (σ : Store) (m : String) (σ' : Store),
      evalOptExprF fuel c env σ = .ok (some (.error m)) σ' →
      evalNodeF (fuel + 2) (.expr (.ifE c cons alt)) env σ = .ok (some (.error m)) σ') ∧
    (∀ (fuel : Nat) (name : String) (ve : Option Expr) (env : Nat) (σ : Store) (m : String)
       (σ' : Store),
      evalOptExprF fuel ve env σ = .ok (some (.error m)) σ' →
      evalNodeF (fuel + 1) (.stmt (.letS name ve)) env σ = .ok (some (.error m)) σ') ∧
    (∀ (fuel : Nat) (ve : Option Expr) (env : Nat) (σ : Store) (m : String) (σ' : Store),
      evalOptExprF fuel ve env σ = .ok (some (.error m)) σ' →
      evalNodeF (fuel + 1) (.stmt (.returnS ve)) env σ = .ok (some (.error m)) σ') ∧
    (∀ (fuel : Nat) (fnE : Option Expr) (args : Option (List (Option Expr))) (env : Nat)
       (σ : Store) (m : String) (σ' : Store),
      evalOptExprF fuel fnE env σ = .ok (some (.error m)) σ' →
      evalNodeF (fuel + 1) (.expr (.call fnE args)) env σ = .ok (some (.error m)) σ') ∧
    (∀ (fuel : Nat) (e : Option Expr) (es : List (Option Expr)) (env : Nat) (σ : Store)
       (acc : List (Option Obj)) (m : String) (σ' : Store),
      evalOptExprF fuel e env σ = .ok (some (.error m)) σ' →
      evalExpressionsF (fuel + 1) (e :: es) env σ acc = .ok [some (.error m)] σ') ∧
    (∀ (fuel : Nat) (fnE : Option Expr) (args : Option (List (Option Expr))) (env : Nat)
       (σ : Store) (fv : Option Obj) (σ1 : Store) (m : String) (σ2 : Store),
      evalOptExprF fuel fnE env σ = .ok fv σ1 → isError fv = false →
      evalExpressionsF fuel (args.getD []) env σ1 [] = .ok [some (.error m)] σ2 →
      evalNodeF (fuel + 1) (.expr (.call fnE args)) env σ = .ok (some (.error m)) σ2) := by
  refine ⟨?_, ?_, ?_, ?_, ?_, ?_, ?_, ?_, ?_⟩
  · intro fuel op r env σ m σ' h
    simp [evalNodeF, h, isError]
  · intro fuel l op r env σ m σ' h
    simp [evalNodeF, h, isError]
  · intro fuel l op r env σ lv σ1 m σ2 h1 h2 h3
    simp [evalNodeF, h1, h2, h3, isError_error]
  · intro fuel c cons alt env σ m σ' h
    simp [evalNodeF, evalIfExpressionF, h, isError]
  · intro fuel name ve env σ m σ' h
    simp [evalNodeF, h, isError]
  · intro fuel ve env σ m σ' h
    simp [evalNodeF, h, isError]
  · intro fuel fnE args env σ m σ' h
    simp [evalNodeF, h, isError]
  · intro fuel e es env σ acc m σ' h
    simp [evalExpressionsF, h, isError]
  · intro fuel fnE args env σ fv σ1 m σ2 h1 h2 h3
    simp [evalNodeF, h1, h2, h3, isError_error]

/-- Witness for C3 at concrete inputs built from `5 + true` (whose
evaluation is the error) used as a sub-expression everywhere. -/
theorem C3_error_propagation_witness :
    evalNodeF 5 (.expr (.pre "!"
        (some (.inf (some (.intLit 5)) "+" (some (.boolLit true)))))) 0 initialStore =
      .ok (some (.error "type mismatch: INTEGER + BOOLEAN")) initialStore ∧
    evalNodeF 5 (.stmt (.returnS
        (some (.inf (some (.intLit 5)) "+" (some (.boolLit true)))))) 0 initialStore =
      .ok (some (.error "type mismatch: INTEGER + BOOLEAN")) initialStore ∧
    evalExpressionsF 5 [some (.inf (some (.intLit 5)) "+" (some (.boolLit true))),
        some (.intLit 1)] 0 initialStore [] =
      .ok [some (.error "type mismatch: INTEGER + BOOLEAN")] initialStore :=
  ⟨C3_error_propagation.1 4 "!" _ 0 initialStore _ initialStore rfl,
   C3_error_propagation.2.2.2.2.2.1 4 _ 0 initialStore _ initialStore rfl,
   C3_error_propagation.2.2.2.2.2.2.2.1 4 _ [some (.intLit 1)] 0 initialStore []
     _ initialStore rfl⟩

/-! ## Claim C10: `Eval` is partial at its interface -/

/-- C10.  A `let` statement binds the name and returns the Go nil (no
value object at all, distinct from the `NULL` singleton); array
literals and index expressions have no `Eval` case and also return
nil; and a program whose last statement is a `let` evaluates to nil. -/
theorem C10_let_and_missing_cases_yield_nil :
    (∀ (fuel : Nat) (name : String) (ve : Option Expr) (env : Nat) (σ : Store)
       (v : Option Obj) (σ' : Store),
      evalOptExprF fuel ve env σ = .ok v σ' → isError v = false →
      evalNodeF (fuel + 1) (.stmt (.letS name ve)) env σ = .ok none (envSet σ' env name v)) ∧
    (∀ (fuel : Nat) (elems : Option (List (Option Expr))) (env : Nat) (σ : Store),
      evalNodeF (fuel + 1) (.expr (.arrayLit elems)) env σ = .ok none σ) ∧
    (∀ (fuel : Nat) (left idx : Option Expr) (env : Nat) (σ : Store),
      evalNodeF (fuel + 1) (.expr (.indexE left idx)) env σ = .ok none σ) ∧
    runValue "let a = 5;" 32 64 = some none := by
  refine ⟨?_, fun fuel elems env σ => rfl, fun fuel l i env σ => rfl, rfl⟩
  intro fuel name ve env σ v σ' h1 h2
  simp [evalNodeF, h1, h2]

/-- Witness for C10 at `let a = 5`. -/
theorem C10_witness :
    evalNodeF 3 (.stmt (.letS "a" (some (.intLit 5)))) 0 initialStore =
      .ok none (envSet initialStore 0 "a" (some (.integer 5))) :=
  C10_let_and_missing_cases_yield_nil.1 2 "a" (some (.intLit 5)) 0 initialStore
    (some (.integer 5)) initialStore rfl rfl

/-! ## Claim C9: unguarded integer division -/

/-- C9.  The `/` case performs the host's `int64` division directly:
with a nonzero divisor it returns `Integer(left / right)` (truncating,
wrapping), and with divisor `Integer 0` it hits the host division — a
runtime panic, not an `Error` value; the zero-divisor branch is
reachable from a division expression whose right operand evaluates to
`Integer 0`, and concretely from the program `5 / 0;`. -/
theorem C9_division_unguarded :
    (∀ a b : Int, b ≠ 0 →
      evalIntegerInfixP "/" (.integer a) (.integer b) =
        .val (some (.integer (wrap64 (a.tdiv b))))) ∧
    (∀ a : Int, evalIntegerInfixP "/" (.integer a) (.integer 0) = .panicked) ∧
    (∀ (a : Int) (m : String),
      ¬ evalIntegerInfixP "/" (.integer a) (.integer 0) = .val (some (.error m))) ∧
    (∀ (fuel : Nat) (l r : Option Expr) (env : Nat) (σ : Store) (a : Int) (σ1 σ2 : Store),
      evalOptExprF fuel l env σ = .ok (some (.integer a)) σ1 →
      evalOptExprF fuel r env σ1 = .ok (some (.integer 0)) σ2 →
      evalNodeF (fuel + 1) (.expr (.inf l "/" r)) env σ = .panicked) ∧
    runProgram "5 / 0;" 32 64 = some .panicked := by
  refine ⟨?_, fun a => rfl, ?_, ?_, rfl⟩
  · intro a b hb
    have hb' : (b == 0) = false := by simpa using hb
    simp [evalIntegerInfixP, hb']
  · intro a m h
    rw [show evalIntegerInfixP "/" (.integer a) (.integer 0) = .panicked from rfl] at h
    exact PVal.noConfusion h
  · intro fuel l r env σ a σ1 σ2 h1 h2
    simp [evalNodeF, h1, h2, isError, evalInfixExpressionP, Obj.typeTag, evalIntegerInfixP]

/-- Witness for C9: `7 / 2` is `3` and a division node with a zero
divisor panics. -/
theorem C9_witness :
    evalIntegerInfixP "/" (.integer 7) (.integer 2) =
      .val (some (.integer (wrap64 (Int.tdiv 7 2)))) ∧
    evalNodeF 3 (.expr (.inf (some (.intLit 5)) "/" (some (.intLit 0)))) 0 initialStore =
      .panicked :=
  ⟨C9_division_unguarded.1 7 2 (by decide),
   C9_division_unguarded.2.2.2.1 2 (some (.intLit 5)) (some (.intLit 0)) 0 initialStore 5
     initialStore initialStore rfl rfl⟩

/-! ## Claim C8: type-mismatch errors -/

/-- C8.  End to end, `5 + true;` evaluates to an Error whose inspect
form is exactly `ERROR: type mismatch: INTEGER + BOOLEAN`; in general
an infix whose two operand values have different type tags evaluates to
`Error("type mismatch: L op R")` with exactly that text. -/
theorem C8_type_mismatch :
    runProgram "5 + true;" 32 64 =
      some (.ok (some (.error "type mismatch: INTEGER + BOOLEAN")) initialStore) ∧
    errorInspect "type mismatch: INTEGER + BOOLEAN" =
      "ERROR: type mismatch: INTEGER + BOOLEAN" ∧
    (∀ (op : String) (l r : Obj), l.typeTag ≠ r.typeTag →
      evalInfixExpressionP op (some l) (some r) =
        .val (some (.error ("type mismatch: " ++ l.typeTag ++ " " ++ op ++ " " ++ r.typeTag)))) := by
  refine ⟨rfl, rfl, ?_⟩
  intro op l r h
  cases l <;> cases r <;> simp_all [evalInfixExpressionP, Obj.typeTag]

/-- Witness for C8 at `Integer 5` and the `TRUE` singleton. -/
theorem C8_witness :
    evalInfixExpressionP "+" (some (.integer 5)) (some (.boolean true true)) =
      .val (some (.error ("type mismatch: " ++ (Obj.integer 5).typeTag ++ " " ++ "+" ++ " " ++
        (Obj.boolean true true).typeTag))) :=
  C8_type_mismatch.2.2 "+" (.integer 5) (.boolean true true) (by simp [Obj.typeTag])

/-! ## Claim C4: the `ReturnValue` sentinel at the Program boundary -/

/-- C4.  The claim says a whole Program never evaluates to a
`ReturnValue`-typed value.  The program `return if (10 > 1) { return
10; };` (which parses with no errors) refutes it: the inner `return`
wraps once, the outer `return` wraps again, and program evaluation
unwraps only one layer — the program's value is
`ReturnValue(Integer 10)`, whose type tag is `RETURN_VALUE`. -/
theorem C4_counterexample :
    runValue "return if (10 > 1) { return 10; };" 64 64 =
      some (some (.returnValue (some (.integer 10)))) ∧
    (Obj.returnValue (some (.integer 10))).typeTag = "RETURN_VALUE" :=
  ⟨rfl, rfl⟩

/-- C4 (amended).  Block evaluation propagates a `ReturnValue` upward
without unwrapping, while program evaluation and function application
unwrap exactly **one** layer; a singly-wrapped sentinel is therefore
invisible at the Program boundary (in particular the nested-if source
evaluates to Integer 10), but a `ReturnValue` can still escape: the
program's value is `ReturnValue`-typed only when some statement
evaluated to a doubly-wrapped `ReturnValue(ReturnValue(v))`. -/
theorem C4_return_sentinel_amended :
    runValue "if (10 > 1) { if (10 > 1) { return 10; } return 1; }" 64 64 =
      some (some (.integer 10)) ∧
    (∀ (fuel : Nat) (s : Stmt) (rest : List Stmt) (env : Nat) (σ : Store) (v : Option Obj)
       (σ' : Store),
      evalNodeF fuel (.stmt s) env σ = .ok (some (.returnValue v)) σ' →
      evalBlockF (fuel + 1) (s :: rest) env σ = .ok (some (.returnValue v)) σ') ∧
    (∀ (fuel : Nat) (s : Stmt) (rest : List Stmt) (env : Nat) (σ : Store) (v : Option Obj)
       (σ' : Store),
      evalNodeF fuel (.stmt s) env σ = .ok (some (.returnValue v)) σ' →
      evalProgramF (fuel + 1) (s :: rest) env σ = .ok v σ') ∧
    (∀ (fuel : Nat) (ps : List String) (body : List Stmt) (E : Nat) (args : List (Option Obj))
       (σ : Store) (w : Option Obj) (σ' : Store),
      ¬ args.length < ps.length →
      evalNodeF fuel (.block body) σ.length (σ ++ [⟨bindParams ps args, some E⟩]) =
        .ok (some (.returnValue w)) σ' →
      applyFunctionF (fuel + 1) (some (.function ps body E)) args σ = .ok w σ') ∧
    (∀ (fuel : Nat) (stmts : List Stmt) (env : Nat) (σ : Store) (v : Option Obj) (σ' : Store),
      evalProgramF fuel stmts env σ = .ok (some (.returnValue v)) σ' →
      ∃ (f : Nat) (s : Stmt) (σ₀ σ₁ : Store), s ∈ stmts ∧
        evalNodeF f (.stmt s) env σ₀ =
          .ok (some (.returnValue (some (.returnValue v)))) σ₁) := by
  refine ⟨rfl, ?_, ?_, ?_, ?_⟩
  · intro fuel s rest env σ v σ' h
    simp [evalBlockF, h, Obj.typeTag]
  · intro fuel s rest env σ v σ' h
    simp [evalProgramF, h]
  · intro fuel ps body E args σ w σ' h1 h2
    simp [applyFunctionF, h1, h2, unwrapReturnValue]
  · intro fuel
    induction fuel with
    | zero =>
      intro stmts env σ v σ' h
      exact EvalR.noConfusion h
    | succ fuel ih =>
      intro stmts env σ v σ' h
      cases stmts with
      | nil => simp [evalProgramF] at h
      | cons s rest =>
        simp only [evalProgramF] at h
        rcases hs : evalNodeF fuel (.stmt s) env σ with _ | _ | ⟨r, σ₁⟩ <;> rw [hs] at h
        · exact EvalR.noConfusion h
        · exact EvalR.noConfusion h
        · cases r with
          | none =>
            cases rest with
            | nil => simp at h
            | cons s2 rest2 =>
              obtain ⟨f, s', σ₀, σ₁', mem, eq⟩ := ih (s2 :: rest2) env σ₁ v σ' h
              exact ⟨f, s', σ₀, σ₁', List.Mem.tail _ mem, eq⟩
          | some o =>
            cases o with
            | returnValue w =>
              simp only [] at h
              injection h with h1 h2
              subst h1
              subst h2
              exact ⟨fuel, s, σ, σ₁, List.Mem.head _, hs⟩
            | error m => simp at h
            | integer n =>
              cases rest with
              | nil => simp at h
              | cons s2 rest2 =>
                obtain ⟨f, s', σ₀, σ₁', mem, eq⟩ := ih (s2 :: rest2) env σ₁ v σ' h
                exact ⟨f, s', σ₀, σ₁', List.Mem.tail _ mem, eq⟩
            | strV s0 =>
              cases rest with
              | nil => simp at h
              | cons s2 rest2 =>
                obtain ⟨f, s', σ₀, σ₁', mem, eq⟩ := ih (s2 :: rest2) env σ₁ v σ' h
                exact ⟨f, s', σ₀, σ₁', List.Mem.tail _ mem, eq⟩
            | boolean b sh =>
              cases rest with
              | nil => simp at h
              | cons s2 rest2 =>
                obtain ⟨f, s', σ₀, σ₁', mem, eq⟩ := ih (s2 :: rest2) env σ₁ v σ' h
                exact ⟨f, s', σ₀, σ₁', List.Mem.tail _ mem, eq⟩
            | null =>
              cases rest with
              | nil => simp at h
              | cons s2 rest2 =>
                obtain ⟨f, s', σ₀, σ₁', mem, eq⟩ := ih (s2 :: rest2) env σ₁ v σ' h
                exact ⟨f, s', σ₀, σ₁', List.Mem.tail _ mem, eq⟩
            | function p b e =>
              cases rest with
              | nil => simp at h
              | cons s2 rest2 =>
                obtain ⟨f, s', σ₀, σ₁', mem, eq⟩ := ih (s2 :: rest2) env σ₁ v σ' h
                exact ⟨f, s', σ₀, σ₁', List.Mem.tail _ mem, eq⟩
            | builtin n =>
              cases rest with
              | nil => simp at h
              | cons s2 rest2 =>
                obtain ⟨f, s', σ₀, σ₁', mem, eq⟩ := ih (s2 :: rest2) env σ₁ v σ' h
                exact ⟨f, s', σ₀, σ₁', List.Mem.tail _ mem, eq⟩

/-- Witness for C4 (amended): a single `return 1;` through block and
program evaluation, a function body `return 7` at a call, and the
double-wrap program instantiating the escape condition. -/
theorem C4_return_sentinel_amended_witness :
    evalBlockF 4 [.returnS (some (.intLit 1))] 0 initialStore =
      .ok (some (.returnValue (some (.integer 1)))) initialStore ∧
    evalProgramF 4 [.returnS (some (.intLit 1))] 0 initialStore =
      .ok (some (.integer 1)) initialStore ∧
    applyFunctionF 6 (some (.function [] [.returnS (some (.intLit 7))] 0)) [] initialStore =
      .ok (some (.integer 7)) (initialStore ++ [Frame.mk (bindParams [] []) (some 0)]) ∧
    (∃ (f : Nat) (s : Stmt) (σ₀ σ₁ : Store),
      s ∈ [Stmt.returnS (some (.ifE (some (.inf (some (.intLit 10)) ">" (some (.intLit 1))))
            [.returnS (some (.intLit 10))] none))] ∧
      evalNodeF f (.stmt s) 0 σ₀ =
        .ok (some (.returnValue (some (.returnValue (some (.integer 10)))))) σ₁) :=
  ⟨C4_return_sentinel_amended.2.1 3 _ [] 0 initialStore (some (.integer 1)) initialStore rfl,
   C4_return_sentinel_amended.2.2.1 3 _ [] 0 initialStore (some (.integer 1)) initialStore rfl,
   C4_return_sentinel_amended.2.2.2.1 5 [] [.returnS (some (.intLit 7))] 0 [] initialStore
     (some (.integer 7)) (initialStore ++ [Frame.mk (bindParams [] []) (some 0)])
     (by decide) rfl,
   C4_return_sentinel_amended.2.2.2.2 12
     [Stmt.returnS (some (.ifE (some (.inf (some (.intLit 10)) ">" (some (.intLit 1))))
        [.returnS (some (.intLit 10))] none))] 0 initialStore
     (some (.integer 10)) initialStore rfl⟩

/-! ## Claim C5: closure capture -/

/-- In a well-formed store every outer link points to an older frame. -/
theorem wfAux_spec : ∀ (σ : List Frame) (base i : Nat) (fr : Frame) (j : Nat),
    wfAux base σ = true → σ[i]? = some fr → fr.outer = some j → j < base + i := by
  intro σ
  induction σ with
  | nil => intro base i fr j _ h2 _; simp at h2
  | cons f rest ih =>
    intro base i fr j h1 h2 h3
    simp only [wfAux, Bool.and_eq_true] at h1
    cases i with
    | zero =>
      simp only [List.getElem?_cons_zero, Option.some.injEq] at h2
      subst h2
      have h4 := h1.1
      rw [h3] at h4
      simp only [decide_eq_true_eq] at h4
      omega
    | succ i' =>
      have h2' : rest[i']? = some fr := by simpa using h2
      have := ih (base + 1) i' fr j h1.2 h2' h3
      omega

/-- Appending a frame whose outer link is in range preserves
well-formedness. -/
theorem wfAux_append : ∀ (σ : List Frame) (base : Nat) (fr : Frame),
    wfAux base σ = true →
    (match fr.outer with
     | some j => decide (j < base + σ.length)
     | none => true) = true →
    wfAux base (σ ++ [fr]) = true := by
  intro σ
  induction σ with
  | nil =>
    intro base fr _ h2
    simpa [wfAux] using h2
  | cons f rest ih =>
    intro base fr h1 h2
    simp only [wfAux, Bool.and_eq_true] at h1
    simp only [List.cons_append, wfAux, Bool.and_eq_true]
    refine ⟨h1.1, ih (base + 1) fr h1.2 ?_⟩
    cases ho : fr.outer with
    | none => simp
    | some j =>
      rw [ho] at h2
      simp only [List.length_cons, decide_eq_true_eq] at h2
      simp only [decide_eq_true_eq]
      omega

/-- On a well-formed store, `Environment.Get` does not depend on the
fuel once the fuel exceeds the frame index (the outer chain strictly
descends). -/
theorem envGetAux_stable : ∀ (σ : Store), wfStore σ = true →
    ∀ (i : Nat) (x : String), i < σ.length →
    ∀ g g', i < g → i < g' → envGetAux σ g i x = envGetAux σ g' i x := by
  intro σ hwf i
  induction i using Nat.strong_induction_on with
  | _ i ih =>
    intro x hi g g' hg hg'
    obtain ⟨g0, rfl⟩ : ∃ g0, g = g0 + 1 := ⟨g - 1, by omega⟩
    obtain ⟨g1, rfl⟩ : ∃ g1, g' = g1 + 1 := ⟨g' - 1, by omega⟩
    cases hfr : σ[i]? with
    | none =>
      unfold envGetAux
      rw [hfr]
    | some fr =>
      unfold envGetAux
      rw [hfr]
      show (match lookupBind fr.bindings x with
            | some v => some v
            | none =>
              match fr.outer with
              | some j => envGetAux σ g0 j x
              | none => none) =
           (match lookupBind fr.bindings x with
            | some v => some v
            | none =>
              match fr.outer with
              | some j => envGetAux σ g1 j x
              | none => none)
      cases hlk : lookupBind fr.bindings x with
      | some v => rfl
      | none =>
        show (match fr.outer with
              | some j => envGetAux σ g0 j x
              | none => none) =
             (match fr.outer with
              | some j => envGetAux σ g1 j x
              | none => none)
        cases ho : fr.outer with
        | none => rfl
        | some j =>
          have hj : j < 0 + i := wfAux_spec σ 0 i fr j hwf hfr ho
          exact ih j (by omega) x (by omega) g0 g1 (by omega) (by omega)

/-- Frames appended after position `i` are invisible to `Get` from `i`
on a well-formed store. -/
theorem envGetAux_append : ∀ (σ τ : Store), wfStore σ = true →
    ∀ (g i : Nat) (x : String), i < σ.length → i < g →
    envGetAux (σ ++ τ) g i x = envGetAux σ g i x := by
  intro σ τ hwf g
  induction g with
  | zero => intro i x hi hg; omega
  | succ g ih =>
    intro i x hi hg
    cases hfr : σ[i]? with
    | none =>
      unfold envGetAux
      rw [List.getElem?_append_left hi, hfr]
    | some fr =>
      unfold envGetAux
      rw [List.getElem?_append_left hi, hfr]
      show (match lookupBind fr.bindings x with
            | some v => some v
            | none =>
              match fr.outer with
              | some j => envGetAux (σ ++ τ) g j x
              | none => none) =
           (match lookupBind fr.bindings x with
            | some v => some v
            | none =>
              match fr.outer with
              | some j => envGetAux σ g j x
              | none => none)
      cases hlk : lookupBind fr.bindings x with
      | some v => rfl
      | none =>
        show (match fr.outer with
              | some j => envGetAux (σ ++ τ) g j x
              | none => none) =
             (match fr.outer with
              | some j => envGetAux σ g j x
              | none => none)
        cases ho : fr.outer with
        | none => rfl
        | some j =>
          have hj : j < 0 + i := wfAux_spec σ 0 i fr j hwf hfr ho
          exact ih j x (by omega) (by omega)

/-- `Environment.Get` is unchanged by appending frames. -/
theorem envGet_append (σ τ : Store) (hwf : wfStore σ = true) (i : Nat) (x : String)
    (hi : i < σ.length) : envGet (σ ++ τ) i x = envGet σ i x := by
  unfold envGet
  rw [envGetAux_append σ τ hwf _ i x hi (by simp only [List.length_append]; omega)]
  exact envGetAux_stable σ hwf i x hi _ _ (by simp only [List.length_append]; omega) (by omega)

/-- Lookup distributes over appended binding lists. -/
theorem lookupBind_append (l1 l2 : List (String × Option Obj)) (x : String) :
    lookupBind (l1 ++ l2) x =
      (match lookupBind l1 x with
       | some v => some v
       | none => lookupBind l2 x) := by
  induction l1 with
  | nil => rfl
  | cons p rest ih =>
    obtain ⟨k, v⟩ := p
    simp only [List.cons_append, lookupBind]
    by_cases hc : (k == x) = true
    · simp [hc]
    · simp only [Bool.not_eq_true] at hc
      simp [hc, ih]

/-- A name not among the keys is not found. -/
theorem lookupBind_eq_none_of_not_mem :
    ∀ (l : List (String × Option Obj)) (x : String),
    x ∉ l.map Prod.fst → lookupBind l x = none := by
  intro l
  induction l with
  | nil => intro x _; rfl
  | cons p rest ih =>
    obtain ⟨k, v⟩ := p
    intro x hx
    simp only [List.map_cons, List.mem_cons, not_or] at hx
    have hc : (k == x) = false := by
      simp only [beq_eq_false_iff_ne, ne_eq]
      exact fun h => hx.1 (h ▸ rfl)
    simp [lookupBind, hc, ih x hx.2]

/-- Folding cons is reversal (the shape of the `Set` loop). -/
theorem foldl_cons_eq_reverse_append {α : Type} :
    ∀ (l acc : List α), l.foldl (fun acc pa => pa :: acc) acc = l.reverse ++ acc := by
  intro l
  induction l with
  | nil => intro acc; rfl
  | cons p rest ih =>
    intro acc
    simp only [List.foldl_cons, ih, List.reverse_cons, List.append_assoc, List.cons_append,
      List.nil_append]

/-- `extendFunctionEnv`'s bindings are the parameter/argument pairs in
reverse `Set` order. -/
theorem bindParams_eq (ps : List String) (args : List (Option Obj)) :
    bindParams ps args = (ps.zip args).reverse := by
  unfold bindParams
  rw [foldl_cons_eq_reverse_append]
  simp

/-- Keys of a zip come from the left list. -/
theorem zip_keys_sub : ∀ (ps : List String) (args : List (Option Obj)) (x : String),
    x ∈ (ps.zip args).map Prod.fst → x ∈ ps := by
  intro ps
  induction ps with
  | nil => intro args x h; simp at h
  | cons p rest ih =>
    intro args x h
    cases args with
    | nil => simp at h
    | cons a args' =>
      simp only [List.zip_cons_cons, List.map_cons, List.mem_cons] at h
      rcases h with h | h
      · exact h ▸ List.Mem.head _
      · exact List.Mem.tail _ (ih args' x h)

/-- Distinct parameters give distinct binding keys. -/
theorem zip_keys_nodup : ∀ (ps : List String) (args : List (Option Obj)),
    ps.Nodup → ((ps.zip args).map Prod.fst).Nodup := by
  intro ps
  induction ps with
  | nil => intro args _; simp
  | cons p rest ih =>
    intro args hnd
    cases args with
    | nil => simp
    | cons a args' =>
      simp only [List.nodup_cons] at hnd
      simp only [List.zip_cons_cons, List.map_cons, List.nodup_cons]
      exact ⟨fun hmem => hnd.1 (zip_keys_sub rest args' p hmem), ih args' hnd.2⟩

/-- With distinct keys, looking a key up in the reversed list finds its
value. -/
theorem lookupBind_reverse_mem :
    ∀ (l : List (String × Option Obj)) (k : String) (v : Option Obj),
    (l.map Prod.fst).Nodup → (k, v) ∈ l → lookupBind l.reverse k = some v := by
  intro l
  induction l with
  | nil => intro k v _ h; simp at h
  | cons p rest ih =>
    intro k v hnd hmem
    obtain ⟨k0, v0⟩ := p
    simp only [List.map_cons, List.nodup_cons] at hnd
    rw [List.reverse_cons, lookupBind_append]
    rcases List.mem_cons.mp hmem with heq | hmem'
    · obtain ⟨rfl, rfl⟩ := Prod.mk.injEq .. ▸ heq
      have hnone : lookupBind rest.reverse k = none := by
        apply lookupBind_eq_none_of_not_mem
        simpa using hnd.1
      rw [hnone]
      simp [lookupBind]
    · rw [ih k v hnd.2 hmem']

/-- Lookup through the fresh frame created by `extendFunctionEnv`:
parameter bindings shadow; anything else defers to the captured
environment `E` as it stands in the pre-call store. -/
theorem envGet_extend (σ : Store) (E : Nat) (bs : List (String × Option Obj)) (x : String)
    (hwf : wfStore σ = true) (hE : E < σ.length) :
    envGet (σ ++ [⟨bs, some E⟩]) σ.length x =
      (match lookupBind bs x with
       | some v => some v
       | none => envGet σ E x) := by
  have hred : envGet (σ ++ [⟨bs, some E⟩]) σ.length x =
      (match lookupBind bs x with
       | some v => some v
       | none => envGetAux (σ ++ [⟨bs, some E⟩]) (σ.length + 1) E x) := by
    unfold envGet
    rw [show (σ ++ [Frame.mk bs (some E)]).length = σ.length + 1 from by simp]
    unfold envGetAux
    rw [List.getElem?_concat_length]
    rfl
  rw [hred]
  cases hlk : lookupBind bs x with
  | some v => rfl
  | none =>
    show envGetAux (σ ++ [⟨bs, some E⟩]) (σ.length + 1) E x = envGet σ E x
    rw [envGetAux_append σ [⟨bs, some E⟩] hwf (σ.length + 1) E x hE (by omega)]
    unfold envGet
    exact envGetAux_stable σ hwf E x hE _ _ (by omega) (by omega)

/-- C5.  A function value called with its arguments evaluates its body
in a fresh child of the function's *captured* environment `E` (the
caller's environment does not appear in `applyFunction` at all): the
appended frame has outer `E` and exactly the parameter bindings;
identifier lookup in that frame returns the argument of a parameter
and otherwise sees `E`'s chain as it stood at call time; concretely,
`let counter = fn(x) { fn() { x } }; let c = counter(42); c();`
evaluates to 42 — the inner closure sees `x` from `counter`'s
invocation environment, not from the caller's. -/
theorem C5_closure_capture :
    (∀ (fuel : Nat) (ps : List String) (body : List Stmt) (E : Nat)
       (args : List (Option Obj)) (σ : Store) (r : Option Obj) (σ' : Store),
      ¬ args.length < ps.length →
      evalNodeF fuel (.block body) σ.length (σ ++ [⟨bindParams ps args, some E⟩]) = .ok r σ' →
      applyFunctionF (fuel + 1) (some (.function ps body E)) args σ =
        .ok (unwrapReturnValue r) σ') ∧
    (∀ (ps : List String) (args : List (Option Obj)) (σ : Store) (E : Nat),
      (σ ++ [Frame.mk (bindParams ps args) (some E)])[σ.length]? =
        some (Frame.mk (bindParams ps args) (some E))) ∧
    (∀ (ps : List String) (args : List (Option Obj)) (σ : Store) (E : Nat) (x : String),
      wfStore σ = true → E < σ.length →
      envGet (σ ++ [⟨bindParams ps args, some E⟩]) σ.length x =
        (match lookupBind (bindParams ps args) x with
         | some v => some v
         | none => envGet σ E x)) ∧
    (∀ (ps : List String) (args : List (Option Obj)) (σ : Store) (E : Nat) (p : String)
       (a : Option Obj),
      ps.Nodup → (p, a) ∈ ps.zip args → wfStore σ = true → E < σ.length →
      envGet (σ ++ [⟨bindParams ps args, some E⟩]) σ.length p = some a) ∧
    runValue "let counter = fn(x) { fn() { x } }; let c = counter(42); c();" 64 64 =
      some (some (.integer 42)) := by
  refine ⟨?_, ?_, ?_, ?_, rfl⟩
  · intro fuel ps body E args σ r σ' h1 h2
    simp [applyFunctionF, h1, h2]
  · intro ps args σ E
    exact List.getElem?_concat_length _ _
  · intro ps args σ E x hwf hE
    exact envGet_extend σ E (bindParams ps args) x hwf hE
  · intro ps args σ E p a hnd hmem hwf hE
    rw [envGet_extend σ E (bindParams ps args) p hwf hE, bindParams_eq,
      lookupBind_reverse_mem (ps.zip args) p a (zip_keys_nodup ps args hnd) hmem]

/-- Witness for C5 at a one-parameter function applied to `42`. -/
theorem C5_closure_capture_witness :
    applyFunctionF 6 (some (.function ["x"] [.exprS (some (.ident "x"))] 0))
        [some (.integer 42)] initialStore =
      .ok (some (.integer 42))
        (initialStore ++ [Frame.mk (bindParams ["x"] [some (.integer 42)]) (some 0)]) ∧
    envGet (initialStore ++ [Frame.mk (bindParams ["x"] [some (.integer 42)]) (some 0)])
        1 "x" = some (some (.integer 42)) :=
  ⟨C5_closure_capture.1 5 ["x"] [.exprS (some (.ident "x"))] 0 [some (.integer 42)]
     initialStore (some (.integer 42))
     (initialStore ++ [Frame.mk (bindParams ["x"] [some (.integer 42)]) (some 0)])
     (by decide) rfl,
   C5_closure_capture.2.2.2.1 ["x"] [some (.integer 42)] initialStore 0 "x"
     (some (.integer 42)) (by simp) (List.mem_singleton.mpr rfl) rfl (by decide)⟩

end Monkey
